import Mathlib

/- Verification development for the LED drone lamp-replacement simulator.

   Shallow embedding of the engine sources:
   - `src/tsp.js` — route optimization (exhaustive search, nearest neighbor,
     cheapest insertion, 2-opt, multi-drone joint optimization);
   - the backend server module — fleet state, dispatch controller
     (`tryStartMission`), auto-service scheduler, mission worker ticks and the
     global tick loop;
   - the store module — fleet state construction, `markLampForReplacement`,
     `createMission`, `findMission`.

   Modeling conventions:
   - Geographic coordinates and distances are modeled over an arbitrary
     `LinearOrderedCommRing` parameter `α` (the JS code computes with IEEE
     floats standing for reals; every routing decision in the source uses only
     +, -, *, comparisons of distances, so an ordered commutative ring is the
     faithful interface; `ℚ`/`ℝ` are instances, and concrete runs use `ℤ`).
     The haversine `geoDistance` involves transcendental functions, so the
     distance function is a parameter `d : Dist α` of every routing definition.
   - String identifiers (`drone-01`, dock ids, mission ids) are opaque tokens
     in the source and are modeled as naturals.
   - JS in-place mutation of entity objects is modeled by updating the entity
     inside the state by id (entity ids are unique in the running system; the
     few theorems that need this carry an explicit `Nodup` hypothesis).
   - `Array.prototype.sort` with the comparator
     `(l, r) => geoDistance(l.position, lamp) - geoDistance(r.position, lamp)`
     is a stable sort by that key (TimSort); any stable sort by the same total
     preorder computes the same list, so it is embedded as a stable insertion
     sort, which the kernel can evaluate.
   - Loops whose bound is data-dependent are given explicit structural fuel
     that provably dominates the number of iterations of the JS loop.
-/

namespace DroneSim

section Model

variable {α : Type} [LinearOrderedCommRing α]

/-- Geographic position `{lat, lng}`. -/
structure Pos (α : Type) where
  lat : α
  lng : α
deriving DecidableEq

/-- Routing point: the shape `{id, lat, lng}` that `tsp.js` consumes (lamps
are passed to the optimizer directly). -/
structure Point (α : Type) where
  id : ℕ
  pos : Pos α
deriving DecidableEq

/-- Abstract stand-in for `geoDistance` (haversine great-circle distance):
any function assigning a cost to a pair of positions.  All routing code in
the source treats `geoDistance` as a black box. -/
abbrev Dist (α : Type) := Pos α → Pos α → α

/-- Concrete distance instance used for concrete executions: the L1 metric on
integer coordinates (`max x (-x)` is `|x|`). -/
def manhattanDist : Dist ℤ := fun a b =>
  max (a.lat - b.lat) (b.lat - a.lat) + max (a.lng - b.lng) (b.lng - a.lng)

/-- Lamp status: `ok | replace | in_progress`. -/
inductive LampStatus
  | ok
  | replace
  | inProgress
deriving DecidableEq

/-- Drone status: `idle | charging | enroute | replacing | servicing`. -/
inductive DroneStatus
  | idle
  | charging
  | enroute
  | replacing
  | servicing
deriving DecidableEq

/-- Mission status: `planned | running | completed`. -/
inductive MissionStatus
  | planned
  | running
  | completed
deriving DecidableEq

/-- Mission source: `manual | auto_service`. -/
inductive MissionSource
  | manual
  | autoService
deriving DecidableEq

/-- Dock container swap status: `not_replaced | in_progress | replaced`. -/
inductive SwapStatus
  | notReplaced
  | inProgress
  | replaced
deriving DecidableEq

/-- Log entry kind (the `type` field of `addLog`); messages and payloads are
presentation data and are not modeled. -/
inductive LogKind
  | mission
  | drone
  | dock
  | replaceLog
  | auto
  | errorLog
  | alarm
  | env
deriving DecidableEq

/-- Street lamp entity. -/
structure Lamp (α : Type) where
  id : ℕ
  pos : Pos α
  status : LampStatus
  powerOn : Bool
  cassettePresent : Bool
  energyW : ℕ
deriving DecidableEq

/-- Drone entity.  Battery is an integer percentage (all battery writes in the
source are integer-valued). -/
structure Drone (α : Type) where
  id : ℕ
  battery : ℤ
  isOperational : Bool
  status : DroneStatus
  targetLampId : Option ℕ
  pendingContainerOps : ℕ
  containerLampsRemaining : ℕ
  serviceEndsAt : Option ℕ
  homeDockId : Option ℕ
  activeDockId : Option ℕ
  position : Pos α
deriving DecidableEq

/-- Dock entity. -/
structure Dock (α : Type) where
  id : ℕ
  pos : Pos α
  fullContainers : ℕ
  emptyContainers : ℕ
  isOperational : Bool
  containerSwapStatus : SwapStatus
  lastSwapCompletedAt : Option ℕ
deriving DecidableEq

/-- Mission entity.  `droneRoutes` is the JS object `droneId → [lampId]`,
kept as an association list in key-insertion order. -/
structure Mission where
  id : ℕ
  status : MissionStatus
  source : MissionSource
  droneRoutes : List (ℕ × List ℕ)
  routeLampIds : List ℕ
  completedLampIds : List ℕ
  startedAt : Option ℕ
  finishedAt : Option ℕ
deriving DecidableEq

/-- The authoritative in-memory fleet state (`state` in the store module). -/
structure SysState (α : Type) where
  autoServiceEnabled : Bool
  docks : List (Dock α)
  drones : List (Drone α)
  lamps : List (Lamp α)
  missions : List Mission
  logs : List LogKind
deriving DecidableEq

/-- Module-level scheduler variables of the auto-service scheduler:
`lastAutoDispatchAt` and the per-drone cursor map `autoServiceProgress`. -/
structure SchedState where
  lastAutoDispatchAt : ℕ
  progress : List (ℕ × ℕ)
deriving DecidableEq

/-- View of a lamp as a routing point. -/
def Lamp.toPoint (l : Lamp α) : Point α := ⟨l.id, l.pos⟩

end Model

section Constants

/-- `LAMPS_PER_CONTAINER = 5` — the container capacity (`CAPACITY`). -/
def LAMPS_PER_CONTAINER : ℕ := 5

/-- `MIN_BATTERY_FOR_FLIGHT = 60`. -/
def MIN_BATTERY_FOR_FLIGHT : ℤ := 60

/-- `RETURN_TO_DOCK_BATTERY_THRESHOLD = 25`. -/
def RETURN_TO_DOCK_BATTERY_THRESHOLD : ℤ := 25

/-- `REPLACEMENT_DURATION_MS = 1800`. -/
def REPLACEMENT_DURATION_MS : ℕ := 1800

/-- `DOCK_SERVICE_MS = 30000`. -/
def DOCK_SERVICE_MS : ℕ := 30000

/-- `AUTO_DISPATCH_COOLDOWN_MS = 4000`. -/
def AUTO_DISPATCH_COOLDOWN_MS : ℕ := 4000

/-- `TICK_MS = 1000` — the coarse global tick interval. -/
def TICK_MS : ℕ := 1000

/-- `CHARGE_RATE_PER_TICK = 2`. -/
def CHARGE_RATE_PER_TICK : ℤ := 2

/-- `MAX_EXACT_POINTS = 8` — exhaustive-search size cap in `tsp.js`. -/
def MAX_EXACT_POINTS : ℕ := 8

end Constants

section Routing

variable {α : Type} [LinearOrderedCommRing α]

/-- Leg-by-leg distance of a route continued from a previous point:
`Σ d(route[i], route[i+1])` part of `routeDistance`. -/
def chainDistance (d : Dist α) : Point α → List (Point α) → α
  | _, [] => 0
  | prev, q :: rest => d prev.pos q.pos + chainDistance d q rest

/-- `routeDistance(route, startPosition)` of `tsp.js`: distance from the start
to the first stop plus the stop-to-stop legs; `0` for an empty route. -/
def routeDistance (d : Dist α) (route : List (Point α)) (startPosition : Pos α) : α :=
  match route with
  | [] => 0
  | p :: rest => d startPosition p.pos + chainDistance d p rest

/-- Strict-improvement scan step of a running-minimum loop: replace the
accumulator only on `f y < best`. -/
def foldMinByGo {β : Type} (f : β → α) : β × α → List β → β × α
  | acc, [] => acc
  | acc, y :: ys => foldMinByGo f (if f y < acc.2 then (y, f y) else acc) ys

/-- Scan computing the strict-first minimum of `f` over a list, mirroring the
JS idiom `best = +Infinity; if (v < best) { best = v; ... }`: the first list
element always beats the infinite initializer, and afterwards the first
element attaining the minimal key wins ties. -/
def foldMinBy {β : Type} (f : β → α) : List β → Option (β × α)
  | [] => none
  | x :: xs => some (foldMinByGo f (x, f x) xs)

/-- All ways to pick one element out of a list: `(picked, rest)` in index
order.  This is the choice structure of the generator `permutations` in
`tsp.js` (pick `items[index]`, recurse on the remainder). -/
def selections {β : Type} : List β → List (β × List β)
  | [] => []
  | x :: xs => (x, xs) :: (selections xs).map (fun s => (s.1, x :: s.2))

/-- Fueled body of the `permutations` generator of `tsp.js`: lists of length
at most 1 yield themselves, otherwise every element is tried as the head.
`fuel ≥ length` makes the fuel pattern unreachable. -/
def permsAux {β : Type} : ℕ → List β → List (List β)
  | _, [] => [[]]
  | _, [x] => [[x]]
  | 0, l => [l]
  | n + 1, l => (selections l).flatMap (fun s => (permsAux n s.2).map (fun t => s.1 :: t))

/-- `permutations(items)` of `tsp.js`, with fuel instantiated to the length. -/
def permutationsJS {β : Type} (items : List β) : List (List β) :=
  permsAux items.length items

/-- `bruteForceBestRoute(lamps, startPosition)`: try all permutations, keep
the first one attaining the minimal total path distance. -/
def bruteForceBestRoute (d : Dist α) (lamps : List (Point α)) (startPosition : Pos α) :
    List (Point α) :=
  if lamps.length ≤ 1 then lamps
  else
    match foldMinBy (fun r => routeDistance d r startPosition) (permutationsJS lamps) with
    | some (r, _) => r
    | none => lamps

/-- Greedy nearest-neighbor loop of `nearestNeighborRoute` (the `> 8` points
branch): repeatedly pick the unvisited point closest to the current position.
Fuel is the number of remaining points. -/
def nnGreedyLoop (d : Dist α) : ℕ → Pos α → List (Point α) → List (Point α)
  | 0, _, _ => []
  | _ + 1, _, [] => []
  | fuel + 1, current, p :: ps =>
    match foldMinBy (fun ip => d current ip.2.pos) ((p :: ps).enum) with
    | some (ip, _) => ip.2 :: nnGreedyLoop d fuel ip.2.pos ((p :: ps).eraseIdx ip.1)
    | none => []

/-- `nearestNeighborRoute(lamps, startPosition)` of `tsp.js`: exhaustive
search for at most `MAX_EXACT_POINTS` points, greedy nearest neighbor
otherwise. -/
def nearestNeighborRoute (d : Dist α) (lamps : List (Point α)) (startPosition : Pos α) :
    List (Point α) :=
  if lamps.length = 0 then []
  else if lamps.length ≤ MAX_EXACT_POINTS then bruteForceBestRoute d lamps startPosition
  else nnGreedyLoop d lamps.length startPosition lamps

/-- `bestInsertionDelta(route, lamp, startPosition)`: the insertion position
with the minimal route-length increase, scanning positions `0..route.length`
and keeping the first strict minimum. -/
def bestInsertionDelta (d : Dist α) (route : List (Point α)) (lamp : Point α)
    (startPosition : Pos α) : ℕ × α :=
  match route with
  | [] => (0, d startPosition lamp.pos)
  | _ :: _ =>
    let dummy : Point α := ⟨0, startPosition⟩
    let deltaAt := fun (i : ℕ) =>
      let prev : Pos α := if i = 0 then startPosition else (route.getD (i - 1) dummy).pos
      let next : Option (Point α) := if i = route.length then none else some (route.getD i dummy)
      let removed : α := match next with | some q => d prev q.pos | none => 0
      let added : α :=
        d prev lamp.pos + (match next with | some q => d lamp.pos q.pos | none => 0)
      added - removed
    match foldMinBy deltaAt (List.range (route.length + 1)) with
    | some (i, delta) => (i, delta)
    | none => (0, 0)

/-- Segment reversal `[...slice(0,i), ...slice(i,j+1).reverse(), ...slice(j+1)]`
of the 2-opt candidate construction. -/
def reverseSegment (r : List (Point α)) (i j : ℕ) : List (Point α) :=
  r.take i ++ ((r.take (j + 1)).drop i).reverse ++ r.drop (j + 1)

/-- One full double-loop scan of `twoOptRoute`: for `i ∈ [0, n-3]`,
`j ∈ [i+1, n-2]` apply the segment reversal whenever it strictly shortens the
route, continuing the scan on the improved route (as the JS loop does, since
it mutates `bestRoute` in place).  The route length is invariant under
reversal, so the JS loop bounds stay `n`. -/
def twoOptSweep (d : Dist α) (startPosition : Pos α) (r : List (Point α)) : List (Point α) :=
  let n := r.length
  let pairs := (List.range (n - 2)).flatMap (fun i => (List.range' (i + 1) (n - 2 - i)).map (fun j => (i, j)))
  pairs.foldl
    (fun best ij =>
      let cand := reverseSegment best ij.1 ij.2
      if routeDistance d cand startPosition < routeDistance d best startPosition then cand
      else best)
    r

/-- Fueled `while (improved)` loop of `twoOptRoute`.  A sweep that improved
strictly decreases the route distance; distances of permutations of a fixed
route take at most `length !` values, so `length ! + 1` fuel dominates the JS
loop and the fuel-exhaustion branch is unreachable. -/
def twoOptLoop (d : Dist α) (startPosition : Pos α) : ℕ → List (Point α) → List (Point α)
  | 0, r => r
  | n + 1, r =>
    let r2 := twoOptSweep d startPosition r
    if routeDistance d r2 startPosition < routeDistance d r startPosition then
      twoOptLoop d startPosition n r2
    else r2

/-- `twoOptRoute(route, startPosition)` of `tsp.js`: identity for routes
shorter than 4 stops, otherwise 2-opt local search to a fixpoint. -/
def twoOptRoute (d : Dist α) (route : List (Point α)) (startPosition : Pos α) :
    List (Point α) :=
  if route.length < 4 then route
  else twoOptLoop d startPosition (Nat.factorial route.length + 1) route

end Routing

section Assignment

variable {α : Type} [LinearOrderedCommRing α]

/-- Association-list read with a default: `map.get(key) ?? dflt` /
`obj[key] ?? dflt`. -/
def assocGetD {β : Type} (m : List (ℕ × β)) (k : ℕ) (dflt : β) : β :=
  match m.find? (fun e => e.1 == k) with
  | some e => e.2
  | none => dflt

/-- Association-list point update: `map.set(key, f (map.get key))` for a key
already present (keys are created once, at initialization). -/
def assocUpdate {β : Type} (m : List (ℕ × β)) (k : ℕ) (f : β → β) : List (ℕ × β) :=
  m.map (fun e => if e.1 = k then (e.1, f e.2) else e)

/-- Association-list upsert: `obj[key] = v` (replace if present, else append,
matching JS object key-insertion order). -/
def assocPut {β : Type} (m : List (ℕ × β)) (k : ℕ) (v : β) : List (ℕ × β) :=
  if (m.find? (fun e => e.1 == k)).isSome then
    m.map (fun e => if e.1 = k then (e.1, v) else e)
  else m ++ [(k, v)]

/-- `array.splice(index, 0, item)`: insert at `index`, appending when the
index is past the end (which `List.insertIdx` would not do). -/
def insertAt {β : Type} : ℕ → β → List β → List β
  | 0, b, l => b :: l
  | _ + 1, b, [] => [b]
  | n + 1, b, x :: xs => x :: insertAt n b xs

/-- Stable insertion of an element into a sorted list: the new element goes
after existing elements `x` with `le x b`. -/
def insertSorted {β : Type} (le : β → β → Bool) (b : β) : List β → List β
  | [] => [b]
  | x :: xs => if le x b then x :: insertSorted le b xs else b :: x :: xs

/-- Stable sort by a boolean total preorder.  `Array.prototype.sort` with a
consistent numeric comparator is a stable sort; stable sorting by a total
preorder has a unique result, so this insertion sort computes exactly the
list the JS `sort` produces. -/
def stableSortBy {β : Type} (le : β → β → Bool) (l : List β) : List β :=
  l.foldl (fun acc x => insertSorted le x acc) []

/-- `getDroneLampCapacity(drone)`: `max(0, min(LAMPS_PER_CONTAINER, c))`;
the container count is a natural here, so only the upper clamp remains. -/
def getDroneLampCapacity (drone : Drone α) : ℕ :=
  min LAMPS_PER_CONTAINER drone.containerLampsRemaining

/-- Result shape `{ routeLampIds, droneRoutes }` of both route builders. -/
structure RouteAssignment where
  routeLampIds : List ℕ
  droneRoutes : List (ℕ × List ℕ)
deriving DecidableEq

/-- One step of the `validLamps.forEach` loop of `buildCapacityAwareRoutes`:
sort the active drones by distance to the lamp (stable), pick the first with
remaining capacity, append the lamp to its list and decrement its capacity;
if every drone is exhausted the lamp is dropped. -/
def capacityAssignStep (d : Dist α) (activeDrones : List (Drone α))
    (acc : List (ℕ × List (Point α)) × List (ℕ × ℕ)) (lamp : Point α) :
    List (ℕ × List (Point α)) × List (ℕ × ℕ) :=
  let sortedDrones := stableSortBy
    (fun l r => decide (d l.position lamp.pos ≤ d r.position lamp.pos)) activeDrones
  match sortedDrones.find? (fun dr => decide (0 < assocGetD acc.2 dr.id 0)) with
  | none => acc
  | some dr =>
    (assocUpdate acc.1 dr.id (fun lamps => lamps ++ [lamp]),
     assocUpdate acc.2 dr.id (fun c => c - 1))

/-- `buildCapacityAwareRoutes(lamps, drones)` of the server module: greedy
nearest-available-drone assignment under per-drone container capacity,
followed by per-drone `nearestNeighborRoute` ordering. -/
def buildCapacityAwareRoutes (d : Dist α) (lamps : List (Point α))
    (drones : List (Drone α)) : RouteAssignment :=
  let activeDrones := drones.filter (fun dr => dr.isOperational)
  if lamps.length = 0 ∨ activeDrones.length = 0 then ⟨[], []⟩
  else
    let init : List (ℕ × List (Point α)) × List (ℕ × ℕ) :=
      (activeDrones.map (fun dr => (dr.id, [])),
       activeDrones.map (fun dr => (dr.id, getDroneLampCapacity dr)))
    let assigned := lamps.foldl (capacityAssignStep d activeDrones) init
    let droneRoutes := activeDrones.map (fun dr =>
      (dr.id,
        (nearestNeighborRoute d (assocGetD assigned.1 dr.id []) dr.position).map Point.id))
    ⟨(droneRoutes.map Prod.snd).flatten, droneRoutes⟩

/-- Seed phase of `optimizeMultiDroneRoutes`: repeatedly assign the globally
closest (drone, lamp) pair, removing both; fuel is the number of seed
drones. -/
def seedPhase (d : Dist α) :
    ℕ → List (Drone α) → List (Point α) → List (ℕ × List (Point α)) →
    List (ℕ × List (Point α)) × List (Point α)
  | 0, _, unassigned, routes => (routes, unassigned)
  | fuel + 1, seedDrones, unassigned, routes =>
    if seedDrones.length = 0 ∨ unassigned.length = 0 then (routes, unassigned)
    else
      let cands := seedDrones.enum.flatMap (fun de =>
        unassigned.enum.map (fun le => (de.1, de.2, le.1, le.2)))
      match foldMinBy (fun c => d c.2.1.position c.2.2.2.pos) cands with
      | some (c, _) =>
        seedPhase d fuel (seedDrones.eraseIdx c.1) (unassigned.eraseIdx c.2.2.1)
          (assocUpdate routes c.2.1.id (fun lamps => lamps ++ [c.2.2.2]))
      | none => (routes, unassigned)

/-- Insertion phase of `optimizeMultiDroneRoutes`: cheapest insertion of each
remaining lamp over every drone route and position; fuel is the number of
unassigned lamps. -/
def insertionPhase (d : Dist α) (activeDrones : List (Drone α)) :
    ℕ → List (Point α) → List (ℕ × List (Point α)) → List (ℕ × List (Point α))
  | 0, _, routes => routes
  | fuel + 1, unassigned, routes =>
    if unassigned.length = 0 then routes
    else
      let cands := unassigned.enum.flatMap (fun le =>
        activeDrones.map (fun dr =>
          let ins := bestInsertionDelta d (assocGetD routes dr.id []) le.2 dr.position
          (le.1, le.2, dr.id, ins.1, ins.2)))
      match foldMinBy (fun c => c.2.2.2.2) cands with
      | some (c, _) =>
        insertionPhase d activeDrones fuel (unassigned.eraseIdx c.1)
          (assocUpdate routes c.2.2.1 (fun route => insertAt c.2.2.2.1 c.2.1 route))
      | none => routes

/-- `optimizeMultiDroneRoutes(lamps, drones)` of `tsp.js`: nearest-pair
seeding, then cheapest insertion, then independent 2-opt per drone route. -/
def optimizeMultiDroneRoutes (d : Dist α) (lamps : List (Point α))
    (drones : List (Drone α)) : RouteAssignment :=
  let activeDrones := drones.filter (fun dr => dr.isOperational)
  if lamps.length = 0 ∨ activeDrones.length = 0 then ⟨[], []⟩
  else
    let init : List (ℕ × List (Point α)) := activeDrones.map (fun dr => (dr.id, []))
    let seeded := seedPhase d activeDrones.length activeDrones lamps init
    let routes := insertionPhase d activeDrones seeded.2.length seeded.2 seeded.1
    let droneRoutes := activeDrones.map (fun dr =>
      (dr.id, (twoOptRoute d (assocGetD routes dr.id []) dr.position).map Point.id))
    ⟨(droneRoutes.map Prod.snd).flatten, droneRoutes⟩

end Assignment

section Fleet

variable {α : Type} [LinearOrderedCommRing α]

/-- `findMission(missionId)` of the store module. -/
def findMission (s : SysState α) (mid : ℕ) : Option Mission :=
  s.missions.find? (fun m => m.id == mid)

/-- `state.lamps.find(...)` / `lampById.get(lampId)` lookups. -/
def findLamp (s : SysState α) (lid : ℕ) : Option (Lamp α) :=
  s.lamps.find? (fun l => l.id == lid)

/-- Lookup of a drone by id. -/
def findDrone (s : SysState α) (did : ℕ) : Option (Drone α) :=
  s.drones.find? (fun dr => dr.id == did)

/-- `addLog(type, ...)`: append-only log (messages are not modeled). -/
def addLog (s : SysState α) (k : LogKind) : SysState α :=
  { s with logs := s.logs ++ [k] }

/-- In-place mutation of the mission object found by id, modeled as a
point update of the mission list. -/
def updateMission (s : SysState α) (mid : ℕ) (f : Mission → Mission) : SysState α :=
  { s with missions := s.missions.map (fun m => if m.id = mid then f m else m) }

/-- In-place mutation of a drone object, modeled as a point update by id. -/
def updateDrone (s : SysState α) (dr : Drone α) : SysState α :=
  { s with drones := s.drones.map (fun x => if x.id = dr.id then dr else x) }

/-- Replacement of the first list element matching the predicate (JS mutates
exactly the object `find` returned, which is the first match). -/
def replaceFirst {β : Type} (p : β → Bool) (v : β) : List β → List β
  | [] => []
  | x :: xs => if p x then v :: xs else x :: replaceFirst p v xs

/-- In-place mutation of the lamp object found by `lamps.find(...)`. -/
def updateLamp (s : SysState α) (lamp : Lamp α) : SysState α :=
  { s with lamps := replaceFirst (fun l => l.id == lamp.id) lamp s.lamps }

/-- In-place mutation of the dock object found by `docks.find(...)`. -/
def updateDock (s : SysState α) (dock : Dock α) : SysState α :=
  { s with docks := replaceFirst (fun dk => dk.id == dock.id) dock s.docks }

/-- `getActiveDock(drone)`: the dock bound via `homeDockId ?? activeDockId`. -/
def getActiveDock (s : SysState α) (drone : Drone α) : Option (Dock α) :=
  match drone.homeDockId with
  | some b => s.docks.find? (fun dock => dock.id == b)
  | none =>
    match drone.activeDockId with
    | some b => s.docks.find? (fun dock => dock.id == b)
    | none => none

/-- `moveDroneToDockIfAvailable(drone)`: snap the drone position to its bound
dock when that dock exists. -/
def moveDroneToDockIfAvailable (s : SysState α) (drone : Drone α) : Drone α :=
  match getActiveDock s drone with
  | some dock => { drone with position := dock.pos }
  | none => drone

/-- `getReadyDronesForMission()`: operational, battery at least
`MIN_BATTERY_FOR_FLIGHT`, `idle`/`charging`, and not mid-service. -/
def getReadyDronesForMission (s : SysState α) : List (Drone α) :=
  s.drones.filter (fun dr =>
    dr.isOperational
      && decide (MIN_BATTERY_FOR_FLIGHT ≤ dr.battery)
      && decide (dr.status = DroneStatus.idle ∨ dr.status = DroneStatus.charging)
      && dr.serviceEndsAt.isNone)

/-- Membership test of `getOccupiedLampIds(excludeMissionId)`: a lamp id is
occupied when some other running mission still routes it outside its
completed list, or some `enroute`/`replacing` drone targets it.  The set is
rebuilt from the state on every call — there is no cached copy anywhere in
the model, exactly as in the source. -/
def lampOccupied (s : SysState α) (excludeMissionId : Option ℕ) (lampId : ℕ) : Bool :=
  s.missions.any (fun m =>
      decide (some m.id ≠ excludeMissionId)
        && decide (m.status = MissionStatus.running)
        && m.routeLampIds.contains lampId
        && !(m.completedLampIds.contains lampId))
    || s.drones.any (fun dr =>
      decide (dr.status = DroneStatus.enroute ∨ dr.status = DroneStatus.replacing)
        && dr.targetLampId == some lampId)

/-- `markLampForReplacement(lampId)` of the store module: `null` when the id
is unknown, otherwise force `status = replace`, `powerOn = false`,
`energyW = 0` on the (first) matching lamp and log an alarm. -/
def markLampForReplacement (s : SysState α) (lampId : ℕ) :
    Option (Lamp α) × SysState α :=
  match findLamp s lampId with
  | none => (none, s)
  | some lamp =>
    let upd := { lamp with status := LampStatus.replace, powerOn := false, energyW := 0 }
    (some upd, addLog (updateLamp s upd) LogKind.alarm)

/-- `createMission(routeLampIds, launchDockId, options)` of the store module:
prepend a `planned` mission; the JS mission id `M-${Date.now()}` is modeled
as the current timestamp. -/
def createMission (s : SysState α) (now : ℕ) (routeLampIds : List ℕ)
    (droneRoutes : List (ℕ × List ℕ)) (source : MissionSource) : SysState α :=
  let mission : Mission :=
    { id := now, status := MissionStatus.planned, source := source,
      droneRoutes := droneRoutes, routeLampIds := routeLampIds,
      completedLampIds := [], startedAt := none, finishedAt := none }
  addLog { s with missions := mission :: s.missions } LogKind.mission

/-- Typed failure taxonomy of `tryStartMission` (the source returns
`{ ok:false, statusCode, error }`; the spec names these `NotFound`,
`InvalidState`, `ResourceUnavailable`, `NoRoute`). -/
inductive StartFailure
  | notFound
  | alreadyRunning
  | alreadyCompleted
  | noReadyDrones
  | noRoutes
  | noAssignedDrones
deriving DecidableEq

/-- HTTP status code attached to each failure in the source. -/
def StartFailure.statusCode : StartFailure → ℕ
  | StartFailure.notFound => 404
  | StartFailure.alreadyRunning => 400
  | StartFailure.alreadyCompleted => 400
  | StartFailure.noReadyDrones => 409
  | StartFailure.noRoutes => 400
  | StartFailure.noAssignedDrones => 400

/-- Outcome of `tryStartMission`. -/
inductive StartResult
  | ok
  | err (e : StartFailure)
deriving DecidableEq

/-- Per-drone route filter of the dispatch pass (the `filter` callback inside
`tryStartMission`): drop lamps that are occupied, already claimed in this
pass, missing, or not in `replace` status; claimed ids accumulate across the
drones of the pass. -/
def filterRoute (s : SysState α) (occupied : ℕ → Bool) :
    List ℕ → List ℕ → List ℕ × List ℕ
  | assigned, [] => ([], assigned)
  | assigned, lid :: rest =>
    if occupied lid || assigned.contains lid then filterRoute s occupied assigned rest
    else
      match findLamp s lid with
      | none => filterRoute s occupied assigned rest
      | some lamp =>
        if lamp.status = LampStatus.replace then
          let res := filterRoute s occupied (assigned ++ [lid]) rest
          (lid :: res.1, res.2)
        else filterRoute s occupied assigned rest

/-- The `readyDrones.forEach` building `activeRoutes` inside
`tryStartMission`: only drones ending with a non-empty filtered route get an
entry. -/
def buildActiveRoutes (s : SysState α) (occupied : ℕ → Bool)
    (missionRoutes : List (ℕ × List ℕ)) (readyDrones : List (Drone α)) :
    List (ℕ × List ℕ) :=
  (readyDrones.foldl
    (fun (acc : List (ℕ × List ℕ) × List ℕ) dr =>
      let route0 := assocGetD missionRoutes dr.id []
      let res := filterRoute s occupied acc.2 route0
      (if res.1.isEmpty then acc.1 else acc.1 ++ [(dr.id, res.1)], res.2))
    ([], [])).1

/-- Route (re)computation step of `tryStartMission`: for manual missions,
always recompute a capacity-aware assignment over the ready drones; for
system missions with no pre-computed routes, run the joint optimizer;
otherwise keep the mission's routes. -/
def dispatchMissionRoutes (d : Dist α) (s : SysState α) (mission : Mission)
    (readyDrones : List (Drone α)) : Mission :=
  let missionLamps :=
    mission.routeLampIds.filterMap (fun lid => (findLamp s lid).map Lamp.toPoint)
  if mission.source = MissionSource.manual then
    let optimized := buildCapacityAwareRoutes d missionLamps readyDrones
    { mission with routeLampIds := optimized.routeLampIds,
                   droneRoutes := optimized.droneRoutes }
  else if mission.droneRoutes.isEmpty then
    { mission with
        droneRoutes := (optimizeMultiDroneRoutes d missionLamps readyDrones).droneRoutes }
  else mission

/-- The conflict-filtered per-drone routes of the dispatch pass, using the
occupied-lamp set freshly recomputed from the current state (excluding the
mission being started). -/
def dispatchActiveRoutes (d : Dist α) (s : SysState α) (mission : Mission)
    (readyDrones : List (Drone α)) : List (ℕ × List ℕ) :=
  buildActiveRoutes s (fun lid => lampOccupied s (some mission.id) lid)
    (dispatchMissionRoutes d s mission readyDrones).droneRoutes readyDrones

/-- Main path of `tryStartMission`, after the existence/state/ready-drone
checks have passed: recompute routes, filter conflicts, overwrite
`routeLampIds`, and either fail with no state rollback or commit. -/
def tryStartMissionGo (d : Dist α) (now : ℕ) (s : SysState α) (mid : ℕ)
    (mission : Mission) (readyDrones : List (Drone α)) : StartResult × SysState α :=
  let activeRoutes := dispatchActiveRoutes d s mission readyDrones
  let mission2 := { dispatchMissionRoutes d s mission readyDrones with
                      routeLampIds := (activeRoutes.map Prod.snd).flatten }
  let s2 := updateMission s mid (fun _ => mission2)
  if activeRoutes.isEmpty then (StartResult.err StartFailure.noRoutes, s2)
  else
    let assignedIds := activeRoutes.map Prod.fst
    if (readyDrones.filter (fun dr => assignedIds.contains dr.id)).isEmpty then
      (StartResult.err StartFailure.noAssignedDrones, s2)
    else
      let mission3 := { mission2 with status := MissionStatus.running,
                                      startedAt := some now,
                                      droneRoutes := activeRoutes }
      let s3 := updateMission s2 mid (fun _ => mission3)
      let s4 := { s3 with drones := s3.drones.map (fun dr =>
        if assignedIds.contains dr.id then
          { moveDroneToDockIfAvailable s3 dr with
              status := DroneStatus.enroute, targetLampId := none }
        else dr) }
      (StartResult.ok, addLog s4 LogKind.mission)

/-- `tryStartMission(mission)` of the server module, taking the mission id
(the API route resolves it through `findMission` first; a missing mission is
the `NotFound` branch).  `now` is the clock value used for `startedAt`.
The `runMission` timer registration the source performs on success is
external effect; the mission worker tick itself is modeled separately as
`missionWorkerTick`. -/
def tryStartMission (d : Dist α) (now : ℕ) (s : SysState α) (mid : ℕ) :
    StartResult × SysState α :=
  match findMission s mid with
  | none => (StartResult.err StartFailure.notFound, s)
  | some mission =>
    if mission.status = MissionStatus.running then
      (StartResult.err StartFailure.alreadyRunning, s)
    else if mission.status = MissionStatus.completed then
      (StartResult.err StartFailure.alreadyCompleted, s)
    else
      let readyDrones := getReadyDronesForMission s
      if readyDrones.length = 0 then
        let s1 := { s with drones := s.drones.map (fun dr =>
          if dr.battery < 100 then
            moveDroneToDockIfAvailable s { dr with status := DroneStatus.charging }
          else dr) }
        (StartResult.err StartFailure.noReadyDrones, s1)
      else tryStartMissionGo d now s mid mission readyDrones

/-- Pending (not yet completed) part of a mission's route. -/
def pendingRoute (m : Mission) : List ℕ :=
  m.routeLampIds.filter (fun lid => !(m.completedLampIds.contains lid))

/-- A drone actively holds a lamp: it is `enroute`/`replacing` with that lamp
as its target (exactly the drone clause of `getOccupiedLampIds`). -/
def activeTarget (dr : Drone α) (lid : ℕ) : Prop :=
  (dr.status = DroneStatus.enroute ∨ dr.status = DroneStatus.replacing) ∧
    dr.targetLampId = some lid

/-- No-double-assignment invariant (pending-route reading): no lamp currently
in `replace` status is pending in two distinct running missions' routes, and
no such lamp is the active target of two distinct drones. -/
def NoDoubleAssignment (s : SysState α) : Prop :=
  s.missions.Pairwise (fun m1 m2 => ∀ l ∈ s.lamps, l.status = LampStatus.replace →
    m1.status = MissionStatus.running → m2.status = MissionStatus.running →
    l.id ∈ pendingRoute m1 → l.id ∈ pendingRoute m2 → False) ∧
  s.drones.Pairwise (fun d1 d2 => ∀ l ∈ s.lamps, l.status = LampStatus.replace →
    activeTarget d1 l.id → activeTarget d2 l.id → False)

end Fleet

section Ticks

variable {α : Type} [LinearOrderedCommRing α]

/-- Per-mission worker record of `runMission` (the closure state
`{ drone, queue, targetLampId, replaceStartedAt, replacedCount, returning,
completed }`; the drone reference is kept as the drone id). -/
structure Worker where
  droneId : ℕ
  queue : List ℕ
  targetLampId : Option ℕ
  replaceStartedAt : ℕ
  replacedCount : ℕ
  returning : Bool
  completed : Bool
deriving DecidableEq

/-- `moveDroneTowards(drone, target)` arrival test and step.  The source
compares `hypot(dLat, dLng) <= DRONE_STEP_DEG`; both sides are non-negative,
so comparing squares is equivalent and avoids the square root.  The
non-arrival interpolated position uses a real square root and is therefore a
parameter `stepToward` (its value is irrelevant to every claim; only the
arrival boolean and the snap-to-target behavior matter).  `step` is the
`DRONE_STEP_DEG` constant (0.00075 in the source), kept as a parameter of
the ring. -/
def moveDroneTowards (step : α) (stepToward : Pos α → Pos α → Pos α)
    (current target : Pos α) : Pos α × Bool :=
  let dLat := target.lat - current.lat
  let dLng := target.lng - current.lng
  if dLat * dLat + dLng * dLng ≤ step * step then (target, true)
  else (stepToward current target, false)

/-- One mission-clock tick for one worker: the body of the
`workers.forEach` inside `runMission`'s `setInterval`.  Parameters: `now` is
`Date.now()`; `drainRand ∈ [0,2]` and `energyRand ∈ [0,12]` are the sampled
`Math.round(Math.random()*k)` values; `step`/`stepToward` as in
`moveDroneTowards`.  Returns the updated worker and state. -/
def missionWorkerTick (step : α) (stepToward : Pos α → Pos α → Pos α)
    (now drainRand energyRand : ℕ) (s : SysState α) (mid : ℕ) (w : Worker) :
    Worker × SysState α :=
  match findDrone s w.droneId with
  | none => (w, s)
  | some drone0 =>
    if w.completed || !drone0.isOperational then (w, s)
    else
      let interrupted :=
        decide (drone0.battery ≤ RETURN_TO_DOCK_BATTERY_THRESHOLD)
          && w.targetLampId.isSome
          && decide (drone0.status ≠ DroneStatus.replacing)
      let w1 := if interrupted then { w with queue := [], targetLampId := none } else w
      let drone1 :=
        if interrupted then { drone0 with targetLampId := none, status := DroneStatus.enroute }
        else drone0
      let s1 := if interrupted then addLog (updateDrone s drone1) LogKind.drone else s
      match w1.targetLampId with
      | some tid =>
        (match findLamp s1 tid with
        | none =>
          ({ w1 with targetLampId := none },
           updateDrone s1 { drone1 with targetLampId := none, status := DroneStatus.enroute })
        | some lamp =>
          if drone1.status ≠ DroneStatus.replacing ∧ lamp.status ≠ LampStatus.replace then
            ({ w1 with targetLampId := none },
             addLog
               (updateDrone s1 { drone1 with targetLampId := none, status := DroneStatus.enroute })
               LogKind.replaceLog)
          else if drone1.status = DroneStatus.replacing then
            if now - w1.replaceStartedAt < REPLACEMENT_DURATION_MS then (w1, s1)
            else
              let lamp2 := { lamp with status := LampStatus.ok, cassettePresent := true,
                                       powerOn := true, energyW := 100 + energyRand }
              let s2 := updateLamp s1 lamp2
              let s3 := updateMission s2 mid (fun m =>
                { m with completedLampIds := m.completedLampIds ++ [lamp.id] })
              let drone2 := { drone1 with
                battery := max 20 (drone1.battery - (4 + (drainRand : ℤ))),
                containerLampsRemaining := drone1.containerLampsRemaining - 1,
                targetLampId := none, status := DroneStatus.enroute }
              ({ w1 with replacedCount := w1.replacedCount + 1, targetLampId := none },
               addLog (updateDrone s3 drone2) LogKind.replaceLog)
          else
            let drone2 := { drone1 with status := DroneStatus.enroute }
            let mv := moveDroneTowards step stepToward drone2.position lamp.pos
            let drone3 := { drone2 with position := mv.1 }
            if mv.2 then
              if lamp.status ≠ LampStatus.replace then
                ({ w1 with targetLampId := none },
                 updateDrone s1 { drone3 with targetLampId := none,
                                              status := DroneStatus.enroute })
              else if drone3.containerLampsRemaining = 0 then
                ({ w1 with queue := [], targetLampId := none },
                 addLog
                   (updateDrone s1 { drone3 with targetLampId := none,
                                                 status := DroneStatus.enroute })
                   LogKind.dock)
              else
                let s2 := updateLamp s1 { lamp with status := LampStatus.inProgress }
                ({ w1 with replaceStartedAt := now },
                 addLog (updateDrone s2 { drone3 with status := DroneStatus.replacing })
                   LogKind.replaceLog)
            else (w1, updateDrone s1 drone3))
      | none =>
        match w1.queue with
        | nextLampId :: restQueue =>
          ({ w1 with queue := restQueue, targetLampId := some nextLampId },
           updateDrone s1 { drone1 with targetLampId := some nextLampId,
                                        status := DroneStatus.enroute })
        | [] =>
          match getActiveDock s1 drone1 with
          | none =>
            ({ w1 with completed := true },
             updateDrone s1
               { drone1 with targetLampId := none,
                             status := (if drone1.battery < 100 then DroneStatus.charging
                                        else DroneStatus.idle) })
          | some dock =>
            let drone2 := { drone1 with status := DroneStatus.enroute }
            let mv := moveDroneTowards step stepToward drone2.position dock.pos
            let drone3 := { drone2 with position := mv.1 }
            if mv.2 then
              let drone4 := { drone3 with targetLampId := none }
              if drone4.containerLampsRemaining = 0 then
                let drone5 :=
                  { drone4 with status := DroneStatus.servicing,
                                pendingContainerOps := drone4.pendingContainerOps + 1,
                                serviceEndsAt := some (now + DOCK_SERVICE_MS) }
                let s2 := updateDock s1 { dock with containerSwapStatus := SwapStatus.inProgress }
                ({ w1 with returning := true, completed := true, replacedCount := 0 },
                 addLog (updateDrone s2 drone5) LogKind.dock)
              else
                ({ w1 with returning := true, completed := true },
                 updateDrone s1
                   { drone4 with status := (if drone4.battery < 100 then DroneStatus.charging
                                            else DroneStatus.idle) })
            else ({ w1 with returning := true }, updateDrone s1 drone3)

/-- Body of the `state.drones.forEach` of the global `setInterval`: dock
container service completion for `servicing` drones, and charging progress
for `idle`/`charging` drones.  One drone per call; the global tick folds this
over the drone ids. -/
def globalDroneStep (now : ℕ) (s : SysState α) (droneId : ℕ) : SysState α :=
  match findDrone s droneId with
  | none => s
  | some drone =>
    if drone.status = DroneStatus.servicing then
      match drone.serviceEndsAt with
      | some endsAt =>
        if endsAt ≤ now then
          let afterService :=
            match getActiveDock s drone with
            | some dock =>
              if 0 < drone.pendingContainerOps then
                let ops := drone.pendingContainerOps
                let s1 := updateDock s { dock with
                  fullContainers := dock.fullContainers - ops,
                  emptyContainers := dock.emptyContainers + ops,
                  containerSwapStatus := SwapStatus.replaced,
                  lastSwapCompletedAt := some now }
                (addLog
                  (updateDrone s1 { drone with
                    containerLampsRemaining := LAMPS_PER_CONTAINER * ops })
                  LogKind.dock,
                 { drone with containerLampsRemaining := LAMPS_PER_CONTAINER * ops })
              else (s, drone)
            | none => (s, drone)
          updateDrone afterService.1 { afterService.2 with
            pendingContainerOps := 0, serviceEndsAt := none,
            status := (if afterService.2.battery < 100 then DroneStatus.charging
                       else DroneStatus.idle) }
        else s
      | none => s
    else if drone.status = DroneStatus.idle ∨ drone.status = DroneStatus.charging then
      if drone.battery < 100 then
        let drone1 := moveDroneToDockIfAvailable s { drone with status := DroneStatus.charging }
        let drone2 := { drone1 with battery := min 100 (drone1.battery + CHARGE_RATE_PER_TICK) }
        if 100 ≤ drone2.battery then
          addLog (updateDrone s { drone2 with status := DroneStatus.idle }) LogKind.drone
        else updateDrone s drone2
      else if drone.status = DroneStatus.charging then
        updateDrone s { drone with status := DroneStatus.idle }
      else s
    else s

/-- The servicing/charging section of the global tick: the source's
`state.drones.forEach`, folded in array order. -/
def globalDroneTickAll (now : ℕ) (s : SysState α) : SysState α :=
  (s.drones.map Drone.id).foldl (globalDroneStep now) s

/-- `POST /api/drones/containers/replace-all`: force-refill every drone's
container to `LAMPS_PER_CONTAINER`, clear pending service, release
`servicing` drones, and mark every dock swap `replaced`. -/
def replaceAllContainers (now : ℕ) (s : SysState α) : SysState α :=
  let refill : Drone α → Drone α := fun dr =>
    let dr1 : Drone α :=
      { dr with containerLampsRemaining := LAMPS_PER_CONTAINER,
                pendingContainerOps := 0,
                serviceEndsAt := (none : Option ℕ) }
    if dr1.status = DroneStatus.servicing then
      { dr1 with status := (if dr1.battery < 100 then DroneStatus.charging
                            else DroneStatus.idle) }
    else dr1
  let s1 := { s with drones := s.drones.map refill }
  let s2 := { s1 with docks := s1.docks.map (fun dk =>
    { dk with containerSwapStatus := SwapStatus.replaced,
              lastSwapCompletedAt := some now }) }
  addLog s2 LogKind.dock

/-- Relation between a drone before and after one mission worker tick, read
off `runMission`: the container is untouched, or — only for a drone that was
in `replacing` status, i.e. a cassette replacement completing — decremented
by exactly one. -/
def ContainerTickRel : Drone α → Drone α → Prop := fun pre post =>
  post.containerLampsRemaining = pre.containerLampsRemaining ∨
  (pre.status = DroneStatus.replacing ∧
    post.containerLampsRemaining = pre.containerLampsRemaining - 1)

/-- Relation between a drone before and after one global servicing/charging
tick: the container is untouched, or — only for a `servicing` drone whose
service deadline has passed and which has pending container operations, i.e.
a completed dock container service — reset to
`LAMPS_PER_CONTAINER * pendingContainerOps`. -/
def ContainerServiceRel (now : ℕ) : Drone α → Drone α → Prop := fun pre post =>
  post.containerLampsRemaining = pre.containerLampsRemaining ∨
  (pre.status = DroneStatus.servicing ∧ 0 < pre.pendingContainerOps ∧
    (∃ endsAt, pre.serviceEndsAt = some endsAt ∧ endsAt ≤ now) ∧
    post.containerLampsRemaining = LAMPS_PER_CONTAINER * pre.pendingContainerOps)

end Ticks

section AutoService

variable {α : Type} [LinearOrderedCommRing α]

/-- `AUTO_SERVICE_PLAN`: the fixed per-drone maintenance plan, keyed by drone
identity (`drone-0N` modeled as `N`); unknown drones get the empty plan
(`?? []`). -/
def AUTO_SERVICE_PLAN : ℕ → List ℕ
  | 1 => [142, 112, 129, 132, 119, 141, 125, 115, 108, 117, 106, 134, 116, 104, 133]
  | 2 => [128, 130, 145, 124, 136]
  | 3 => [114, 100, 101, 107, 143, 139]
  | 4 => [110, 122, 118, 137, 148, 123, 126, 149, 102, 127, 138]
  | 5 => [109, 144, 120, 147, 146, 113, 121, 105, 140, 103, 131, 111, 135]
  | _ => []

/-- Fueled `while` loop of `findNextPlannedLampsForDrone`: walk the plan from
`index`, keeping ids whose lamp currently has `replace` status, until
`maxCount` ids are collected or the plan is exhausted; returns the collected
ids and the final index.  `fuel ≥ plan.length` dominates the loop. -/
def findNextPlannedAux (s : SysState α) (plan : List ℕ) (maxCount : ℕ) :
    ℕ → ℕ → List ℕ → List ℕ × ℕ
  | 0, index, acc => (acc, index)
  | fuel + 1, index, acc =>
    if index < plan.length ∧ acc.length < maxCount then
      let lampId := plan.getD index 0
      let keep :=
        match findLamp s lampId with
        | some lamp => decide (lamp.status = LampStatus.replace)
        | none => false
      findNextPlannedAux s plan maxCount fuel (index + 1)
        (if keep then acc ++ [lampId] else acc)
    else (acc, index)

/-- `findNextPlannedLampsForDrone(droneId, startIndex, maxCount)`. -/
def findNextPlannedLampsForDrone (s : SysState α) (droneId startIndex maxCount : ℕ) :
    List ℕ × ℕ :=
  let plan := AUTO_SERVICE_PLAN droneId
  findNextPlannedAux s plan maxCount (plan.length + 1) startIndex []

/-- Result of `buildAutoServiceDispatch`: proposed routes, the flattened lamp
id list, and the advanced per-drone cursors (not yet committed). -/
structure AutoDispatch where
  droneRoutes : List (ℕ × List ℕ)
  routeLampIds : List ℕ
  nextProgress : List (ℕ × ℕ)
deriving DecidableEq

/-- `buildAutoServiceDispatch(readyDrones)`: per ready drone, take up to
`max(1, min(LAMPS_PER_CONTAINER, containerLampsRemaining))` planned lamps
from its cursor; record the advanced cursor for every ready drone. -/
def buildAutoServiceDispatch (s : SysState α) (sched : SchedState)
    (readyDrones : List (Drone α)) : AutoDispatch :=
  readyDrones.foldl
    (fun acc dr =>
      let currentProgress := assocGetD sched.progress dr.id 0
      let lampsForDrone := max 1 (min LAMPS_PER_CONTAINER dr.containerLampsRemaining)
      let found := findNextPlannedLampsForDrone s dr.id currentProgress lampsForDrone
      { droneRoutes :=
          if found.1.isEmpty then acc.droneRoutes else acc.droneRoutes ++ [(dr.id, found.1)],
        routeLampIds := acc.routeLampIds ++ found.1,
        nextProgress := acc.nextProgress ++ [(dr.id, found.2)] })
    ⟨[], [], []⟩

/-- Commit of the advanced cursors
(`Object.entries(dispatch.nextProgress).forEach(...)`). -/
def commitProgress (progress : List (ℕ × ℕ)) (nextProgress : List (ℕ × ℕ)) :
    List (ℕ × ℕ) :=
  nextProgress.foldl (fun acc e => assocPut acc e.1 e.2) progress

/-- `tryAutoServiceDispatch(now)` of the server module: gated by the feature
flag, the cooldown since the last committed dispatch, absence of manual
missions, ready drones, and a non-empty proposal; creates the auto mission,
attempts to start it, and only on success commits the cursors and the
cooldown timestamp. -/
def tryAutoServiceDispatch (d : Dist α) (now : ℕ) (s : SysState α)
    (sched : SchedState) : SysState α × SchedState :=
  if !s.autoServiceEnabled || now - sched.lastAutoDispatchAt < AUTO_DISPATCH_COOLDOWN_MS then
    (s, sched)
  else if s.missions.any (fun m =>
      decide (m.source = MissionSource.manual)
        && decide (m.status = MissionStatus.planned ∨ m.status = MissionStatus.running)) then
    (s, sched)
  else
    let readyDrones := getReadyDronesForMission s
    if readyDrones.length = 0 then (s, sched)
    else
      let dispatch := buildAutoServiceDispatch s sched readyDrones
      if dispatch.routeLampIds.isEmpty then (s, sched)
      else
        let s1 := createMission s now dispatch.routeLampIds dispatch.droneRoutes
          MissionSource.autoService
        let started := tryStartMission d now s1 now
        if started.1 = StartResult.ok then
          (addLog started.2 LogKind.auto,
           { lastAutoDispatchAt := now,
             progress := commitProgress sched.progress dispatch.nextProgress })
        else (addLog started.2 LogKind.errorLog, sched)

end AutoService

section Samples

/-- Resolution of a route of lamp ids back to routing points (inverse of the
`.map((lamp) => lamp.id)` projection the optimizer applies at the end). -/
def lookupPoints {α : Type} [LinearOrderedCommRing α] (pts : List (Point α)) (ids : List ℕ) :
    List (Point α) :=
  ids.filterMap (fun i => pts.find? (fun p => p.id == i))

/-- Four concrete lamps (integer L1 geometry) for which the joint optimizer's
cheapest-insertion seed plus 2-opt is strictly worse than the exhaustive
nearest-neighbor result. -/
def c6Points : List (Point ℤ) :=
  [⟨1, ⟨-2, -2⟩⟩, ⟨2, ⟨-2, -1⟩⟩, ⟨3, ⟨-2, 2⟩⟩, ⟨4, ⟨-1, -2⟩⟩]

/-- Start position shared by the C6 configuration. -/
def c6Start : Pos ℤ := ⟨0, 0⟩

/-- A single operational drone parked at the C6 start position. -/
def c6Drone : Drone ℤ :=
  { id := 1, battery := 100, isOperational := true, status := DroneStatus.idle,
    targetLampId := none, pendingContainerOps := 0,
    containerLampsRemaining := LAMPS_PER_CONTAINER, serviceEndsAt := none,
    homeDockId := some 1, activeDockId := some 1, position := c6Start }

/-- Scenario A lamps: three lamps at distinct coordinates. -/
def c5Lamps : List (Point ℤ) := [⟨1, ⟨0, 5⟩⟩, ⟨2, ⟨3, 5⟩⟩, ⟨3, ⟨-2, 7⟩⟩]

/-- Scenario A first drone: operational, full container, at the shared dock
position. -/
def c5DroneA : Drone ℤ :=
  { id := 1, battery := 100, isOperational := true, status := DroneStatus.idle,
    targetLampId := none, pendingContainerOps := 0,
    containerLampsRemaining := LAMPS_PER_CONTAINER, serviceEndsAt := none,
    homeDockId := some 1, activeDockId := some 1, position := ⟨0, 0⟩ }

/-- Scenario A second drone, sharing the dock position of the first. -/
def c5DroneB : Drone ℤ := { c5DroneA with id := 2 }

/-- Degenerate distance instance for concrete runs in which distances are
irrelevant. -/
def zeroDist : Dist ℤ := fun _ _ => 0

/-- A dock at the origin. -/
def dock1 : Dock ℤ :=
  { id := 1, pos := ⟨0, 0⟩, fullContainers := 10, emptyContainers := 2,
    isOperational := true, containerSwapStatus := SwapStatus.notReplaced,
    lastSwapCompletedAt := none }

/-- An idle, fully charged, operational drone bound to `dock1`. -/
def readyDrone1 : Drone ℤ :=
  { id := 1, battery := 100, isOperational := true, status := DroneStatus.idle,
    targetLampId := none, pendingContainerOps := 0,
    containerLampsRemaining := LAMPS_PER_CONTAINER, serviceEndsAt := none,
    homeDockId := some 1, activeDockId := some 1, position := ⟨0, 0⟩ }

/-- A lamp in `in_progress` status with power on (mid-replacement). -/
def c10Lamp : Lamp ℤ :=
  { id := 7, pos := ⟨1, 1⟩, status := LampStatus.inProgress, powerOn := true,
    cassettePresent := false, energyW := 80 }

/-- State for the C10 witness: one lamp, currently `in_progress`. -/
def c10State : SysState ℤ :=
  { autoServiceEnabled := false, docks := [dock1], drones := [readyDrone1],
    lamps := [c10Lamp], missions := [], logs := [] }

/-- A mid-service drone with half battery (the kind of drone the spec says
the `ResourceUnavailable` path must leave untouched). -/
def c2Drone : Drone ℤ :=
  { id := 1, battery := 50, isOperational := true, status := DroneStatus.servicing,
    targetLampId := none, pendingContainerOps := 1,
    containerLampsRemaining := 0, serviceEndsAt := some 99999,
    homeDockId := some 1, activeDockId := some 1, position := ⟨0, 0⟩ }

/-- A planned manual mission over lamp 5, with a stale pre-planned route map
(assigned to drone 9) so that the dispatch-time recomputation is visible. -/
def plannedMission5 : Mission :=
  { id := 1, status := MissionStatus.planned, source := MissionSource.manual,
    droneRoutes := [(9, [5])], routeLampIds := [5], completedLampIds := [],
    startedAt := none, finishedAt := none }

/-- A lamp in `replace` status awaiting service. -/
def replaceLamp5 : Lamp ℤ :=
  { id := 5, pos := ⟨2, 3⟩, status := LampStatus.replace, powerOn := false,
    cassettePresent := true, energyW := 0 }

/-- State for the C2 counterexample: the only drone is mid-service (not
ready), so the dispatch hits the `ResourceUnavailable` path. -/
def c2State : SysState ℤ :=
  { autoServiceEnabled := false, docks := [dock1], drones := [c2Drone],
    lamps := [replaceLamp5], missions := [plannedMission5], logs := [] }

/-- Lamp 5 as an `ok` lamp (externally restored before the mission start). -/
def okLamp5 : Lamp ℤ := { replaceLamp5 with status := LampStatus.ok, powerOn := true }

/-- State for the C9 witness: a planned manual mission whose only lamp is no
longer in `replace` status, with a ready drone available. -/
def c9State : SysState ℤ :=
  { autoServiceEnabled := false, docks := [dock1], drones := [readyDrone1],
    lamps := [okLamp5], missions := [plannedMission5], logs := [] }

/-- Running mission that already completed lamp 5 and is still working lamp 6
(the route references both). -/
def c1RunningMission : Mission :=
  { id := 1, status := MissionStatus.running, source := MissionSource.manual,
    droneRoutes := [(2, [5, 6])], routeLampIds := [5, 6], completedLampIds := [5],
    startedAt := some 10, finishedAt := none }

/-- Planned manual mission over the re-failed lamp 5. -/
def c1PlannedMission : Mission :=
  { id := 2, status := MissionStatus.planned, source := MissionSource.manual,
    droneRoutes := [(1, [5])], routeLampIds := [5], completedLampIds := [],
    startedAt := none, finishedAt := none }

/-- The drone of the running mission, currently en route to lamp 6. -/
def c1BusyDrone : Drone ℤ :=
  { id := 2, battery := 80, isOperational := true, status := DroneStatus.enroute,
    targetLampId := some 6, pendingContainerOps := 0,
    containerLampsRemaining := 4, serviceEndsAt := none,
    homeDockId := some 1, activeDockId := some 1, position := ⟨1, 1⟩ }

/-- Lamp 6, mid-replacement by the running mission's drone. -/
def c1Lamp6 : Lamp ℤ :=
  { id := 6, pos := ⟨4, 4⟩, status := LampStatus.inProgress, powerOn := false,
    cassettePresent := true, energyW := 0 }

/-- State for the C1 counterexample: mission 1 is running with lamp 5 already
completed, lamp 5 has been re-failed (status `replace` again), and the planned
mission 2 routes lamp 5; exactly one running mission references lamp 5. -/
def c1State : SysState ℤ :=
  { autoServiceEnabled := false, docks := [dock1],
    drones := [readyDrone1, c1BusyDrone], lamps := [replaceLamp5, c1Lamp6],
    missions := [c1RunningMission, c1PlannedMission], logs := [] }

/-- Degenerate movement interpolation for concrete runs: stay in place (the
interpolated position is never inspected by any claim). -/
def stayPut : Pos ℤ → Pos ℤ → Pos ℤ := fun c _ => c

/-- Low-battery drone sitting exactly at its dock, en route to lamp 5. -/
def c7Drone : Drone ℤ :=
  { id := 1, battery := 24, isOperational := true, status := DroneStatus.enroute,
    targetLampId := some 5, pendingContainerOps := 0, containerLampsRemaining := 3,
    serviceEndsAt := none, homeDockId := some 1, activeDockId := some 1,
    position := ⟨0, 0⟩ }

/-- Worker for `c7Drone`: target lamp 5, one queued stop remaining. -/
def c7Worker : Worker :=
  { droneId := 1, queue := [6], targetLampId := some 5, replaceStartedAt := 0,
    replacedCount := 0, returning := false, completed := false }

/-- Running mission driving `c7Worker`. -/
def c7Mission : Mission :=
  { id := 3, status := MissionStatus.running, source := MissionSource.manual,
    droneRoutes := [(1, [5, 6])], routeLampIds := [5, 6], completedLampIds := [],
    startedAt := some 0, finishedAt := none }

/-- State for the C7 counterexample. -/
def c7State : SysState ℤ :=
  { autoServiceEnabled := false, docks := [dock1], drones := [c7Drone],
    lamps := [replaceLamp5], missions := [c7Mission], logs := [] }

/-- Servicing drone with two pending container swaps (reachable via the
`ResourceUnavailable` status flip pulling an interrupted drone back into a
second mission). -/
def c3Drone : Drone ℤ :=
  { id := 1, battery := 90, isOperational := true, status := DroneStatus.servicing,
    targetLampId := none, pendingContainerOps := 2, containerLampsRemaining := 0,
    serviceEndsAt := some 50, homeDockId := some 1, activeDockId := some 1,
    position := ⟨0, 0⟩ }

/-- State for the C3 counterexample: the service deadline has passed. -/
def c3State : SysState ℤ :=
  { autoServiceEnabled := false, docks := [dock1], drones := [c3Drone],
    lamps := [], missions := [], logs := [] }

/-- Plan lamp 142 of drone 1, in `replace` status. -/
def c8Lamp142 : Lamp ℤ :=
  { id := 142, pos := ⟨3, 3⟩, status := LampStatus.replace, powerOn := false,
    cassettePresent := true, energyW := 0 }

/-- A second drone already en route to lamp 142, making it occupied. -/
def c8BusyDrone : Drone ℤ :=
  { id := 2, battery := 80, isOperational := true, status := DroneStatus.enroute,
    targetLampId := some 142, pendingContainerOps := 0, containerLampsRemaining := 4,
    serviceEndsAt := none, homeDockId := some 1, activeDockId := some 1,
    position := ⟨1, 2⟩ }

/-- State for the C8 counterexample: auto-service enabled, drone 1 ready, its
only available plan lamp occupied by drone 2, so every auto start fails. -/
def c8State : SysState ℤ :=
  { autoServiceEnabled := true, docks := [dock1],
    drones := [readyDrone1, c8BusyDrone], lamps := [c8Lamp142],
    missions := [], logs := [] }

/-- Scheduler state before the failed auto dispatch. -/
def c8Sched : SchedState := { lastAutoDispatchAt := 0, progress := [] }

end Samples

section RoutingLemmas

variable {α : Type} [LinearOrderedCommRing α]

theorem foldMinByGo_spec {β : Type} (f : β → α) :
    ∀ (l : List β) (b : β),
      ∃ x, foldMinByGo f (b, f b) l = (x, f x) ∧ (x = b ∨ x ∈ l) ∧ f x ≤ f b ∧
        ∀ y ∈ l, f x ≤ f y := by
  intro l
  induction l with
  | nil => exact fun b => ⟨b, rfl, Or.inl rfl, le_refl _, by simp⟩
  | cons y ys ih =>
    intro b
    by_cases h : f y < f b
    · obtain ⟨x, h1, h2, h3, h4⟩ := ih y
      refine ⟨x, ?_, ?_, ?_, ?_⟩
      · simpa [foldMinByGo, h] using h1
      · rcases h2 with h2 | h2
        · exact Or.inr (by simp [h2])
        · exact Or.inr (by simp [h2])
      · exact le_trans h3 (le_of_lt h)
      · intro z hz
        rcases List.mem_cons.mp hz with rfl | hz
        · exact h3
        · exact h4 z hz
    · obtain ⟨x, h1, h2, h3, h4⟩ := ih b
      refine ⟨x, ?_, ?_, h3, ?_⟩
      · simpa [foldMinByGo, h] using h1
      · rcases h2 with h2 | h2
        · exact Or.inl h2
        · exact Or.inr (by simp [h2])
      · intro z hz
        rcases List.mem_cons.mp hz with rfl | hz
        · exact le_trans h3 (not_lt.mp h)
        · exact h4 z hz

theorem foldMinBy_spec {β : Type} (f : β → α) (l : List β) (h : l ≠ []) :
    ∃ x, foldMinBy f l = some (x, f x) ∧ x ∈ l ∧ ∀ y ∈ l, f x ≤ f y := by
  match l with
  | [] => exact absurd rfl h
  | x :: xs =>
    obtain ⟨z, h1, h2, h3, h4⟩ := foldMinByGo_spec f xs x
    refine ⟨z, by simp [foldMinBy, h1], ?_, ?_⟩
    · rcases h2 with rfl | h2
      · exact List.mem_cons_self _ _
      · exact List.mem_cons_of_mem _ h2
    · intro y hy
      rcases List.mem_cons.mp hy with rfl | hy
      · exact h3
      · exact h4 y hy

theorem selections_sound {β : Type} :
    ∀ {l : List β} {s : β × List β}, s ∈ selections l → (s.1 :: s.2).Perm l := by
  intro l
  induction l with
  | nil => simp [selections]
  | cons x xs ih =>
    intro s hs
    simp only [selections, List.mem_cons, List.mem_map] at hs
    rcases hs with rfl | ⟨q, hq, rfl⟩
    · exact List.Perm.refl _
    · exact (List.Perm.swap x q.1 q.2).trans ((ih hq).cons x)

theorem selections_complete {β : Type} :
    ∀ {l : List β} {a : β}, a ∈ l → ∃ r, (a, r) ∈ selections l ∧ (a :: r).Perm l := by
  intro l
  induction l with
  | nil => simp
  | cons x xs ih =>
    intro a ha
    rcases List.mem_cons.mp ha with rfl | ha
    · exact ⟨xs, by simp [selections], List.Perm.refl _⟩
    · obtain ⟨r, hr, hperm⟩ := ih ha
      refine ⟨x :: r, ?_, ?_⟩
      · simp only [selections, List.mem_cons, List.mem_map]
        exact Or.inr ⟨(a, r), hr, rfl⟩
      · exact (List.Perm.swap x a r).trans (hperm.cons x)

theorem permsAux_sound {β : Type} :
    ∀ (n : ℕ) (l p : List β), l.length ≤ n → p ∈ permsAux n l → p.Perm l := by
  intro n
  induction n with
  | zero =>
    intro l p hlen hp
    have hnil : l = [] := List.length_eq_zero.mp (Nat.le_zero.mp hlen)
    subst hnil
    simp only [permsAux, List.mem_singleton] at hp
    subst hp
    exact List.Perm.refl _
  | succ n ih =>
    intro l p hlen hp
    match l with
    | [] =>
      simp only [permsAux, List.mem_singleton] at hp
      subst hp
      exact List.Perm.refl _
    | [x] =>
      simp only [permsAux, List.mem_singleton] at hp
      subst hp
      exact List.Perm.refl _
    | x :: y :: rest =>
      simp only [permsAux, List.mem_flatMap, List.mem_map] at hp
      obtain ⟨s, hs, t, ht, rfl⟩ := hp
      have hsp := selections_sound hs
      have hlen2 : s.2.length ≤ n := by
        have hl := hsp.length_eq
        simp only [List.length_cons] at hl hlen
        omega
      exact ((ih s.2 t hlen2 ht).cons s.1).trans hsp

theorem permsAux_complete {β : Type} :
    ∀ (n : ℕ) (l p : List β), l.length ≤ n → p.Perm l → p ∈ permsAux n l := by
  intro n
  induction n with
  | zero =>
    intro l p hlen hperm
    have hnil : l = [] := List.length_eq_zero.mp (Nat.le_zero.mp hlen)
    subst hnil
    have : p = [] := List.Perm.eq_nil hperm
    subst this
    simp [permsAux]
  | succ n ih =>
    intro l p hlen hperm
    match l with
    | [] =>
      have : p = [] := List.Perm.eq_nil hperm
      subst this
      simp [permsAux]
    | [x] =>
      have : p = [x] := List.perm_singleton.mp hperm
      subst this
      simp [permsAux]
    | x :: y :: rest =>
      match p, hperm with
      | [], hperm => exact absurd hperm.length_eq (by simp)
      | a :: t, hperm =>
        have ha : a ∈ x :: y :: rest := hperm.subset (List.mem_cons_self _ _)
        obtain ⟨r, hr, hpr⟩ := selections_complete ha
        have ht : t.Perm r := (hperm.trans hpr.symm).cons_inv
        have hrlen : r.length ≤ n := by
          have hl := hpr.length_eq
          simp only [List.length_cons] at hl hlen
          omega
        simp only [permsAux, List.mem_flatMap, List.mem_map]
        exact ⟨(a, r), hr, t, ih r t hrlen ht, rfl⟩

theorem permutationsJS_sound {β : Type} {l p : List β} (hp : p ∈ permutationsJS l) :
    p.Perm l :=
  permsAux_sound l.length l p (le_refl _) hp

theorem permutationsJS_complete {β : Type} {l p : List β} (hp : p.Perm l) :
    p ∈ permutationsJS l :=
  permsAux_complete l.length l p (le_refl _) hp

theorem bruteForceBestRoute_spec (d : Dist α) (lamps : List (Point α))
    (startPosition : Pos α) (hne : lamps ≠ []) :
    (bruteForceBestRoute d lamps startPosition).Perm lamps ∧
      ∀ p : List (Point α), p.Perm lamps →
        routeDistance d (bruteForceBestRoute d lamps startPosition) startPosition ≤
          routeDistance d p startPosition := by
  by_cases hlen : lamps.length ≤ 1
  · have hbr : bruteForceBestRoute d lamps startPosition = lamps := by
      simp [bruteForceBestRoute, hlen]
    rw [hbr]
    refine ⟨List.Perm.refl _, ?_⟩
    intro p hp
    match lamps, hlen, hne with
    | [], _, hne => exact absurd rfl hne
    | [x], _, _ =>
      have : p = [x] := List.perm_singleton.mp hp
      subst this
      exact le_refl _
  · have hne2 : permutationsJS lamps ≠ [] := by
      intro h
      have hmem := permutationsJS_complete (List.Perm.refl lamps)
      rw [h] at hmem
      simp at hmem
    obtain ⟨r, hfold, hmem, hmin⟩ :=
      foldMinBy_spec (fun r => routeDistance d r startPosition) (permutationsJS lamps) hne2
    have hbr : bruteForceBestRoute d lamps startPosition = r := by
      simp [bruteForceBestRoute, hlen, permutationsJS] at hfold ⊢
      rw [hfold]
    rw [hbr]
    exact ⟨permutationsJS_sound hmem, fun p hp => hmin p (permutationsJS_complete hp)⟩

end RoutingLemmas

section ClaimC4

/-- C4: for every non-empty list of at most 8 points and every start
position, `nearestNeighborRoute` (which delegates to `bruteForceBestRoute`
in this regime) returns a permutation of the input points whose total path
distance — start to first point, then point to point in order — is minimal
over all permutations of the input. -/
theorem nearestNeighborRoute_exact_minimal {α : Type} [LinearOrderedCommRing α]
    (d : Dist α) (lamps : List (Point α)) (startPosition : Pos α)
    (hne : 0 < lamps.length) (hsmall : lamps.length ≤ MAX_EXACT_POINTS) :
    (nearestNeighborRoute d lamps startPosition).Perm lamps ∧
      ∀ p : List (Point α), p.Perm lamps →
        routeDistance d (nearestNeighborRoute d lamps startPosition) startPosition ≤
          routeDistance d p startPosition := by
  have h0 : ¬ lamps.length = 0 := by omega
  have hnn : nearestNeighborRoute d lamps startPosition =
      bruteForceBestRoute d lamps startPosition := by
    simp [nearestNeighborRoute, h0, hsmall]
  rw [hnn]
  exact bruteForceBestRoute_spec d lamps startPosition
    (fun h => h0 (by simp [h]))

/-- Witness for C4 at the concrete four-point configuration. -/
theorem nearestNeighborRoute_exact_minimal_witness :
    (0 < c6Points.length ∧ c6Points.length ≤ MAX_EXACT_POINTS) ∧
      ((nearestNeighborRoute manhattanDist c6Points c6Start).Perm c6Points ∧
        ∀ p : List (Point ℤ), p.Perm c6Points →
          routeDistance manhattanDist (nearestNeighborRoute manhattanDist c6Points c6Start)
              c6Start ≤
            routeDistance manhattanDist p c6Start) :=
  ⟨⟨by decide, by decide⟩,
   nearestNeighborRoute_exact_minimal manhattanDist c6Points c6Start (by decide) (by decide)⟩

end ClaimC4

section ClaimC6

variable {α : Type} [LinearOrderedCommRing α]

theorem twoOptSweep_le (d : Dist α) (startPosition : Pos α) (r : List (Point α)) :
    routeDistance d (twoOptSweep d startPosition r) startPosition ≤
      routeDistance d r startPosition := by
  have key : ∀ (ps : List (ℕ × ℕ)) (r0 : List (Point α)),
      routeDistance d
          (ps.foldl
            (fun best ij =>
              let cand := reverseSegment best ij.1 ij.2
              if routeDistance d cand startPosition < routeDistance d best startPosition then
                cand
              else best)
            r0)
          startPosition ≤
        routeDistance d r0 startPosition := by
    intro ps
    induction ps with
    | nil => exact fun r0 => le_refl _
    | cons ij ps ih =>
      intro r0
      simp only [List.foldl_cons]
      by_cases h :
          routeDistance d (reverseSegment r0 ij.1 ij.2) startPosition <
            routeDistance d r0 startPosition
      · simpa [h] using le_trans (ih _) (le_of_lt h)
      · simpa [h] using ih r0
  exact key _ r

theorem twoOptLoop_le (d : Dist α) (startPosition : Pos α) :
    ∀ (n : ℕ) (r : List (Point α)),
      routeDistance d (twoOptLoop d startPosition n r) startPosition ≤
        routeDistance d r startPosition := by
  intro n
  induction n with
  | zero => exact fun r => le_refl _
  | succ n ih =>
    intro r
    by_cases h :
        routeDistance d (twoOptSweep d startPosition r) startPosition <
          routeDistance d r startPosition
    · have : twoOptLoop d startPosition (n + 1) r =
          twoOptLoop d startPosition n (twoOptSweep d startPosition r) := by
        simp [twoOptLoop, h]
      rw [this]
      exact le_trans (ih _) (le_of_lt h)
    · have : twoOptLoop d startPosition (n + 1) r = twoOptSweep d startPosition r := by
        simp [twoOptLoop, h]
      rw [this]
      exact twoOptSweep_le d startPosition r

/-- C6 amended: the 2-opt pass never increases the length of the route it is
given (each accepted reversal strictly shortens it), so each drone's final
route is no longer than its pre-2-opt cheapest-insertion route.  The original
inequality against `nearestNeighborRoute` does not hold (see the
counterexample): 2-opt is run on the insertion-seeded route, not on the
nearest-neighbor route, and for at most 8 points `nearestNeighborRoute` is
the exact optimum while the 2-opt local optimum can be strictly worse. -/
theorem twoOptRoute_never_longer {α : Type} [LinearOrderedCommRing α] (d : Dist α)
    (route : List (Point α)) (startPosition : Pos α) :
    routeDistance d (twoOptRoute d route startPosition) startPosition ≤
      routeDistance d route startPosition := by
  by_cases h : route.length < 4
  · simp [twoOptRoute, h]
  · have : twoOptRoute d route startPosition =
        twoOptLoop d startPosition (Nat.factorial route.length + 1) route := by
      simp [twoOptRoute, h]
    rw [this]
    exact twoOptLoop_le d startPosition _ route

set_option maxRecDepth 100000

/-- C6 counterexample: a four-point input (the minimum size the claim
covers) and a single operational drone at the start position for which the
2-opt route produced by `optimizeMultiDroneRoutes` is strictly longer than
the `nearestNeighborRoute` for the same point set and start position. -/
theorem jointOptimizer_exceeds_nearestNeighbor :
    4 ≤ c6Points.length ∧
      routeDistance manhattanDist (nearestNeighborRoute manhattanDist c6Points c6Start)
          c6Start <
        routeDistance manhattanDist
          (lookupPoints c6Points
            (assocGetD (optimizeMultiDroneRoutes manhattanDist c6Points [c6Drone]).droneRoutes
              1 []))
          c6Start := by
  constructor
  · decide
  · decide

end ClaimC6

section AssignmentLemmas

variable {α : Type} [LinearOrderedCommRing α]

theorem insertSorted_perm {β : Type} (le : β → β → Bool) (b : β) :
    ∀ l : List β, (insertSorted le b l).Perm (b :: l) := by
  intro l
  induction l with
  | nil => simp [insertSorted]
  | cons x xs ih =>
    by_cases h : le x b
    · simp only [insertSorted, h, if_true]
      exact (ih.cons x).trans (List.Perm.swap b x xs)
    · simp [insertSorted, h]

theorem stableSortBy_perm {β : Type} (le : β → β → Bool) (l : List β) :
    (stableSortBy le l).Perm l := by
  have key : ∀ (l acc : List β),
      (l.foldl (fun acc x => insertSorted le x acc) acc).Perm (acc ++ l) := by
    intro l
    induction l with
    | nil => simp
    | cons x xs ih =>
      intro acc
      simp only [List.foldl_cons]
      refine (ih (insertSorted le x acc)).trans ?_
      have h1 : (insertSorted le x acc ++ xs).Perm ((x :: acc) ++ xs) :=
        (insertSorted_perm le x acc).append_right xs
      refine h1.trans ?_
      simp only [List.cons_append]
      exact (List.perm_middle).symm
  simpa using key l []

theorem insertSorted_mem {β : Type} (le : β → β → Bool) (b : β) (l : List β) (y : β) :
    y ∈ insertSorted le b l ↔ y = b ∨ y ∈ l := by
  rw [(insertSorted_perm le b l).mem_iff]
  simp

theorem insertSorted_pairwise {β : Type} {le : β → β → Bool}
    (htrans : ∀ a b c, le a b = true → le b c = true → le a c = true)
    (htotal : ∀ a b, le a b = true ∨ le b a = true) (b : β) :
    ∀ {l : List β}, l.Pairwise (fun u v => le u v = true) →
      (insertSorted le b l).Pairwise (fun u v => le u v = true) := by
  intro l
  induction l with
  | nil => intro _; simp [insertSorted]
  | cons x xs ih =>
    intro hl
    rcases List.pairwise_cons.mp hl with ⟨hx, hxs⟩
    by_cases h : le x b
    · simp only [insertSorted, h, if_true]
      refine List.pairwise_cons.mpr ⟨?_, ih hxs⟩
      intro y hy
      rcases (insertSorted_mem le b xs y).mp hy with rfl | hy
      · exact h
      · exact hx y hy
    · have hbx : le b x = true := by
        rcases htotal x b with h1 | h1
        · exact absurd h1 h
        · exact h1
      simp only [insertSorted, h, if_false]
      refine List.pairwise_cons.mpr ⟨?_, hl⟩
      intro y hy
      rcases List.mem_cons.mp hy with rfl | hy
      · exact hbx
      · exact htrans b x y hbx (hx y hy)

theorem stableSortBy_pairwise {β : Type} {le : β → β → Bool}
    (htrans : ∀ a b c, le a b = true → le b c = true → le a c = true)
    (htotal : ∀ a b, le a b = true ∨ le b a = true) (l : List β) :
    (stableSortBy le l).Pairwise (fun u v => le u v = true) := by
  have key : ∀ (l acc : List β), acc.Pairwise (fun u v => le u v = true) →
      (l.foldl (fun acc x => insertSorted le x acc) acc).Pairwise
        (fun u v => le u v = true) := by
    intro l
    induction l with
    | nil => exact fun acc h => h
    | cons x xs ih =>
      intro acc hacc
      simp only [List.foldl_cons]
      exact ih _ (insertSorted_pairwise htrans htotal x hacc)
  exact key l [] (by simp)

theorem assocUpdate_keys {β : Type} (m : List (ℕ × β)) (k : ℕ) (f : β → β) :
    (assocUpdate m k f).map Prod.fst = m.map Prod.fst := by
  induction m with
  | nil => rfl
  | cons e es ih =>
    by_cases h : e.1 = k
    · simp [assocUpdate, h] at ih ⊢
      simpa [assocUpdate] using ih
    · simp [assocUpdate, h] at ih ⊢
      simpa [assocUpdate] using ih

theorem assocUpdate_cons {β : Type} (e : ℕ × β) (es : List (ℕ × β)) (k : ℕ) (f : β → β) :
    assocUpdate (e :: es) k f =
      (if e.1 = k then (e.1, f e.2) else e) :: assocUpdate es k f := rfl

theorem assocGetD_cons_of_pos {β : Type} {e : ℕ × β} (es : List (ℕ × β)) {k : ℕ}
    (dflt : β) (h : e.1 = k) : assocGetD (e :: es) k dflt = e.2 := by
  unfold assocGetD
  rw [List.find?_cons_of_pos _ (by simp [h])]

theorem assocGetD_cons_of_neg {β : Type} {e : ℕ × β} (es : List (ℕ × β)) {k : ℕ}
    (dflt : β) (h : ¬ e.1 = k) : assocGetD (e :: es) k dflt = assocGetD es k dflt := by
  unfold assocGetD
  rw [List.find?_cons_of_neg _ (by simp [h])]

theorem assocGetD_update_ne {β : Type} (m : List (ℕ × β)) (k k' : ℕ) (f : β → β)
    (dflt : β) (h : k' ≠ k) :
    assocGetD (assocUpdate m k f) k' dflt = assocGetD m k' dflt := by
  induction m with
  | nil => rfl
  | cons e es ih =>
    rw [assocUpdate_cons]
    by_cases he : e.1 = k
    · rw [if_pos he]
      rw [assocGetD_cons_of_neg _ _ (by omega : ¬ (e.1, f e.2).1 = k')]
      rw [assocGetD_cons_of_neg _ _ (by omega : ¬ e.1 = k')]
      exact ih
    · rw [if_neg he]
      by_cases he2 : e.1 = k'
      · rw [assocGetD_cons_of_pos _ _ he2, assocGetD_cons_of_pos _ _ he2]
      · rw [assocGetD_cons_of_neg _ _ he2, assocGetD_cons_of_neg _ _ he2]
        exact ih

theorem assocGetD_update_eq {β : Type} (m : List (ℕ × β)) (k : ℕ) (f : β → β)
    (dflt : β) (h : k ∈ m.map Prod.fst) :
    assocGetD (assocUpdate m k f) k dflt = f (assocGetD m k dflt) := by
  induction m with
  | nil => simp at h
  | cons e es ih =>
    rw [assocUpdate_cons]
    by_cases he : e.1 = k
    · rw [if_pos he]
      rw [assocGetD_cons_of_pos _ _ (by simpa using he : ((e.1, f e.2) : ℕ × β).1 = k)]
      rw [assocGetD_cons_of_pos _ _ he]
    · rw [if_neg he]
      have h' : k ∈ es.map Prod.fst := by
        rcases List.mem_map.mp h with ⟨x, hx, hxk⟩
        rcases List.mem_cons.mp hx with rfl | hx
        · exact absurd hxk he
        · exact List.mem_map.mpr ⟨x, hx, hxk⟩
      rw [assocGetD_cons_of_neg _ _ he, assocGetD_cons_of_neg _ _ he]
      exact ih h'

theorem assocGetD_of_map {β γ : Type} (key : γ → ℕ) (g : γ → β) (l : List γ)
    (x : γ) (dflt : β) (hmem : x ∈ l) (hnd : (l.map key).Nodup) :
    assocGetD (l.map (fun y => (key y, g y))) (key x) dflt = g x := by
  induction l with
  | nil => simp at hmem
  | cons y ys ih =>
    rw [List.map_cons]
    rcases List.mem_cons.mp hmem with rfl | hmem
    · exact assocGetD_cons_of_pos _ _ rfl
    · by_cases hk : key y = key x
      · exfalso
        have hkx : key x ∈ ys.map key := List.mem_map.mpr ⟨x, hmem, rfl⟩
        rw [← hk] at hkx
        exact (List.nodup_cons.mp (by simpa using hnd)).1 hkx
      · rw [assocGetD_cons_of_neg _ _ hk]
        exact ih hmem (List.nodup_cons.mp (by simpa using hnd)).2

theorem perm_getElem_cons_eraseIdx {β : Type} (l : List β) (i : ℕ) (h : i < l.length) :
    l.Perm (l.get ⟨i, h⟩ :: l.eraseIdx i) := by
  rw [List.eraseIdx_eq_take_drop_succ]
  conv_lhs => rw [← List.take_append_drop i l]
  have hd : l.drop i = l.get ⟨i, h⟩ :: l.drop (i + 1) := by
    rw [List.get_eq_getElem]
    exact (List.getElem_cons_drop l i h).symm
  rw [hd]
  exact List.perm_middle

theorem nnGreedyLoop_perm (d : Dist α) :
    ∀ (fuel : ℕ) (current : Pos α) (remaining : List (Point α)),
      remaining.length ≤ fuel → (nnGreedyLoop d fuel current remaining).Perm remaining := by
  intro fuel
  induction fuel with
  | zero =>
    intro current remaining hlen
    have : remaining = [] := List.length_eq_zero.mp (Nat.le_zero.mp hlen)
    subst this
    simp [nnGreedyLoop]
  | succ n ih =>
    intro current remaining hlen
    match remaining with
    | [] => simp [nnGreedyLoop]
    | p :: ps =>
      obtain ⟨ip, hfold, hmem, _⟩ :=
        foldMinBy_spec (fun ip => d current ip.2.pos) ((p :: ps).enum) (by simp)
      have hidx := (List.mk_mem_enum_iff_getElem?).mp hmem
      have hlt : ip.1 < (p :: ps).length := by
        by_contra hge
        rw [List.getElem?_eq_none (by omega)] at hidx
        exact Option.noConfusion hidx
      have hget : (p :: ps).get ⟨ip.1, hlt⟩ = ip.2 := by
        have h2 := List.getElem?_eq_getElem hlt
        rw [h2] at hidx
        simpa [List.get_eq_getElem] using hidx
      have hloop : nnGreedyLoop d (n + 1) current (p :: ps) =
          ip.2 :: nnGreedyLoop d n ip.2.pos ((p :: ps).eraseIdx ip.1) := by
        simp only [nnGreedyLoop, hfold]
      rw [hloop]
      have hperm := perm_getElem_cons_eraseIdx (p :: ps) ip.1 hlt
      rw [hget] at hperm
      have hlen2 : ((p :: ps).eraseIdx ip.1).length ≤ n := by
        have := List.length_eraseIdx_add_one hlt
        simp only [List.length_cons] at this hlen ⊢
        omega
      exact ((ih ip.2.pos _ hlen2).cons ip.2).trans hperm.symm

theorem nearestNeighborRoute_perm (d : Dist α) (lamps : List (Point α))
    (startPosition : Pos α) : (nearestNeighborRoute d lamps startPosition).Perm lamps := by
  by_cases h0 : lamps.length = 0
  · have : lamps = [] := List.length_eq_zero.mp h0
    subst this
    simp [nearestNeighborRoute]
  · by_cases h8 : lamps.length ≤ MAX_EXACT_POINTS
    · have hnn : nearestNeighborRoute d lamps startPosition =
          bruteForceBestRoute d lamps startPosition := by
        simp [nearestNeighborRoute, h0, h8]
      rw [hnn]
      exact (bruteForceBestRoute_spec d lamps startPosition
        (fun h => h0 (by simp [h]))).1
    · have hnn : nearestNeighborRoute d lamps startPosition =
          nnGreedyLoop d lamps.length startPosition lamps := by
        simp [nearestNeighborRoute, h0, h8]
      rw [hnn]
      exact nnGreedyLoop_perm d lamps.length startPosition lamps (le_refl _)

/-- Characterization of one assignment step of `buildCapacityAwareRoutes`:
either every active drone is out of capacity and the lamp is dropped, or the
lamp goes to a capacity-positive drone at minimal distance (ties broken by
stable order) whose capacity is decremented. -/
theorem capacityAssignStep_spec (d : Dist α) (activeDrones : List (Drone α))
    (acc : List (ℕ × List (Point α)) × List (ℕ × ℕ)) (lamp : Point α) :
    (capacityAssignStep d activeDrones acc lamp = acc ∧
      ∀ dr ∈ activeDrones, assocGetD acc.2 dr.id 0 = 0) ∨
    (∃ sel ∈ activeDrones, 0 < assocGetD acc.2 sel.id 0 ∧
      (∀ dr ∈ activeDrones, 0 < assocGetD acc.2 dr.id 0 →
        d sel.position lamp.pos ≤ d dr.position lamp.pos) ∧
      capacityAssignStep d activeDrones acc lamp =
        (assocUpdate acc.1 sel.id (fun ls => ls ++ [lamp]),
         assocUpdate acc.2 sel.id (fun c => c - 1))) := by
  set le := fun (l r : Drone α) => decide (d l.position lamp.pos ≤ d r.position lamp.pos)
    with hle
  set sorted := stableSortBy le activeDrones with hsorted
  have hperm : sorted.Perm activeDrones := stableSortBy_perm le activeDrones
  cases hfind : sorted.find? (fun dr => decide (0 < assocGetD acc.2 dr.id 0)) with
  | none =>
    left
    constructor
    · simp only [capacityAssignStep]
      rw [← hle, ← hsorted, hfind]
    · intro dr hdr
      have hdr2 : dr ∈ sorted := hperm.mem_iff.mpr hdr
      have := List.find?_eq_none.mp hfind dr hdr2
      simpa using this
  | some sel =>
    right
    obtain ⟨hpsel, as, bs, hsplit, has⟩ := List.find?_eq_some.mp hfind
    have hselmem : sel ∈ sorted := by rw [hsplit]; exact List.mem_append_right as (List.mem_cons_self _ _)
    refine ⟨sel, hperm.mem_iff.mp hselmem, by simpa using hpsel, ?_, ?_⟩
    · intro dr hdr hcap
      have hdr2 : dr ∈ sorted := hperm.mem_iff.mpr hdr
      rw [hsplit] at hdr2
      rcases List.mem_append.mp hdr2 with hdr2 | hdr2
      · exfalso
        have := has dr hdr2
        simp at this
        omega
      · rcases List.mem_cons.mp hdr2 with rfl | hdr2
        · exact le_refl _
        · have hsort : sorted.Pairwise (fun u v => le u v = true) := by
            refine stableSortBy_pairwise ?_ ?_ activeDrones
            · intro a b c hab hbc
              simp only [hle, decide_eq_true_eq] at hab hbc ⊢
              exact le_trans hab hbc
            · intro a b
              simp only [hle, decide_eq_true_eq]
              exact le_total _ _
          rw [hsplit] at hsort
          have h1 := (List.pairwise_append.mp hsort).2.1
          have h2 := (List.pairwise_cons.mp h1).1 dr hdr2
          simpa [hle, decide_eq_true_eq] using h2
    · simp only [capacityAssignStep]
      rw [← hle, ← hsorted, hfind]

end AssignmentLemmas

section ClaimC5

theorem capacityAssign_fold_invariant {α : Type} [LinearOrderedCommRing α] (d : Dist α)
    (activeDrones : List (Drone α)) (hids : (activeDrones.map Drone.id).Nodup) :
    ∀ (ls : List (Point α)) (acc : List (ℕ × List (Point α)) × List (ℕ × ℕ)),
      acc.1.map Prod.fst = activeDrones.map Drone.id →
      acc.2.map Prod.fst = activeDrones.map Drone.id →
      (∀ dr ∈ activeDrones,
        (assocGetD acc.1 dr.id []).length + assocGetD acc.2 dr.id 0 =
          getDroneLampCapacity dr) →
      (∀ dr ∈ activeDrones,
        (assocGetD (ls.foldl (capacityAssignStep d activeDrones) acc).1 dr.id []).length +
            assocGetD (ls.foldl (capacityAssignStep d activeDrones) acc).2 dr.id 0 =
          getDroneLampCapacity dr) := by
  intro ls
  induction ls with
  | nil => exact fun acc _ _ hinv => hinv
  | cons lamp ls ih =>
    intro acc hk1 hk2 hinv
    simp only [List.foldl_cons]
    rcases capacityAssignStep_spec d activeDrones acc lamp with ⟨hstep, _⟩ |
      ⟨sel, hselmem, hcap, _, hstep⟩
    · rw [hstep]
      exact ih acc hk1 hk2 hinv
    · rw [hstep]
      refine ih _ ?_ ?_ ?_
      · rw [assocUpdate_keys]; exact hk1
      · rw [assocUpdate_keys]; exact hk2
      · intro dr hdr
        by_cases hid : dr.id = sel.id
        · have hdreq : dr = sel :=
            List.inj_on_of_nodup_map hids hdr hselmem hid
          subst hdreq
          have hmem1 : dr.id ∈ acc.1.map Prod.fst := by
            rw [hk1]; exact List.mem_map.mpr ⟨dr, hdr, rfl⟩
          have hmem2 : dr.id ∈ acc.2.map Prod.fst := by
            rw [hk2]; exact List.mem_map.mpr ⟨dr, hdr, rfl⟩
          rw [assocGetD_update_eq _ _ _ _ hmem1, assocGetD_update_eq _ _ _ _ hmem2]
          have := hinv dr hdr
          simp only [List.length_append, List.length_cons, List.length_nil]
          omega
        · rw [assocGetD_update_ne _ _ _ _ _ hid, assocGetD_update_ne _ _ _ _ _ hid]
          exact hinv dr hdr

/-- C5: capacity-aware assignment.  Conjunct 1: every step of
`buildCapacityAwareRoutes` either drops the lamp because all drones are out
of capacity, or assigns it to a nearest capacity-positive drone and
decrements that drone's capacity.  Conjunct 2: no drone's assigned route
exceeds its initial capacity `getDroneLampCapacity`.  Conjunct 3
(Scenario A): 3 lamps at distinct coordinates, 2 operational drones sharing
a dock with capacity 5 each — every lamp goes to its nearest available drone
(the first drone, both being equidistant) and 3 lamps are assigned in
total. -/
theorem buildCapacityAwareRoutes_correct {α : Type} [LinearOrderedCommRing α]
    (d : Dist α) (lamps : List (Point α)) (drones : List (Drone α))
    (hids : ((drones.filter (fun dr => dr.isOperational)).map Drone.id).Nodup) :
    (∀ (acc : List (ℕ × List (Point α)) × List (ℕ × ℕ)) (lamp : Point α),
      (capacityAssignStep d (drones.filter (fun dr => dr.isOperational)) acc lamp = acc ∧
        ∀ dr ∈ drones.filter (fun dr => dr.isOperational), assocGetD acc.2 dr.id 0 = 0) ∨
      (∃ sel ∈ drones.filter (fun dr => dr.isOperational),
        0 < assocGetD acc.2 sel.id 0 ∧
        (∀ dr ∈ drones.filter (fun dr => dr.isOperational),
          0 < assocGetD acc.2 dr.id 0 →
            d sel.position lamp.pos ≤ d dr.position lamp.pos) ∧
        capacityAssignStep d (drones.filter (fun dr => dr.isOperational)) acc lamp =
          (assocUpdate acc.1 sel.id (fun ls => ls ++ [lamp]),
           assocUpdate acc.2 sel.id (fun c => c - 1)))) ∧
    (∀ dr ∈ drones.filter (fun dr => dr.isOperational),
      (assocGetD (buildCapacityAwareRoutes d lamps drones).droneRoutes dr.id []).length ≤
        getDroneLampCapacity dr) ∧
    ((buildCapacityAwareRoutes manhattanDist c5Lamps [c5DroneA, c5DroneB]).routeLampIds.length
        = 3 ∧
      (assocGetD (buildCapacityAwareRoutes manhattanDist c5Lamps
          [c5DroneA, c5DroneB]).droneRoutes 1 []).length = 3 ∧
      assocGetD (buildCapacityAwareRoutes manhattanDist c5Lamps
          [c5DroneA, c5DroneB]).droneRoutes 2 [] = [] ∧
      ∀ p ∈ c5Lamps,
        manhattanDist c5DroneA.position p.pos ≤ manhattanDist c5DroneB.position p.pos) := by
  refine ⟨fun acc lamp =>
    capacityAssignStep_spec d (drones.filter (fun dr => dr.isOperational)) acc lamp,
    ?_, by decide, by decide, by decide, by decide⟩
  intro dr hdr
  by_cases hempty :
      lamps.length = 0 ∨ (drones.filter (fun dr => dr.isOperational)).length = 0
  · have hbr : buildCapacityAwareRoutes d lamps drones = ⟨[], []⟩ := by
      unfold buildCapacityAwareRoutes
      simp only [hempty, if_true]
    rw [hbr]
    exact Nat.zero_le _
  · have hroutes : (buildCapacityAwareRoutes d lamps drones).droneRoutes =
        (drones.filter (fun dr => dr.isOperational)).map (fun dr =>
          (dr.id,
            (nearestNeighborRoute d
              (assocGetD
                (lamps.foldl
                  (capacityAssignStep d (drones.filter (fun dr => dr.isOperational)))
                  ((drones.filter (fun dr => dr.isOperational)).map (fun dr => (dr.id, [])),
                   (drones.filter (fun dr => dr.isOperational)).map
                     (fun dr => (dr.id, getDroneLampCapacity dr)))).1
                dr.id [])
              dr.position).map Point.id)) := by
      unfold buildCapacityAwareRoutes
      simp only [hempty, if_false]
    rw [hroutes]
    set activeDrones := drones.filter (fun dr => dr.isOperational) with hact
    set res := lamps.foldl (capacityAssignStep d activeDrones)
      (activeDrones.map (fun dr => (dr.id, [])),
       activeDrones.map (fun dr => (dr.id, getDroneLampCapacity dr))) with hres
    have hentry := assocGetD_of_map Drone.id
      (fun dr => (nearestNeighborRoute d (assocGetD res.1 dr.id []) dr.position).map Point.id)
      activeDrones dr ([] : List ℕ) hdr hids
    rw [hentry]
    have hinv := capacityAssign_fold_invariant d activeDrones hids lamps
      (activeDrones.map (fun dr => (dr.id, [])),
       activeDrones.map (fun dr => (dr.id, getDroneLampCapacity dr)))
      (by simp) (by simp)
      (by
        intro dr2 hdr2
        have h1 := assocGetD_of_map Drone.id (fun _ => ([] : List (Point α)))
          activeDrones dr2 ([] : List (Point α)) hdr2 hids
        have h2 := assocGetD_of_map Drone.id getDroneLampCapacity
          activeDrones dr2 0 hdr2 hids
        simp only [h1, h2, List.length_nil, Nat.zero_add])
      dr hdr
    rw [← hres] at hinv
    have hlen : ((nearestNeighborRoute d (assocGetD res.1 dr.id []) dr.position).map
        Point.id).length = (assocGetD res.1 dr.id []).length := by
      rw [List.length_map]
      exact (nearestNeighborRoute_perm d _ _).length_eq
    rw [hlen]
    omega

/-- Witness for C5: the theorem applied to the Scenario A inputs. -/
theorem buildCapacityAwareRoutes_correct_witness :
    ((([c5DroneA, c5DroneB].filter (fun dr => dr.isOperational)).map Drone.id).Nodup) ∧
      (∀ dr ∈ [c5DroneA, c5DroneB].filter (fun dr => dr.isOperational),
        (assocGetD
            (buildCapacityAwareRoutes manhattanDist c5Lamps
              [c5DroneA, c5DroneB]).droneRoutes dr.id []).length ≤
          getDroneLampCapacity dr) :=
  ⟨by decide,
   (buildCapacityAwareRoutes_correct manhattanDist c5Lamps [c5DroneA, c5DroneB]
      (by decide)).2.1⟩

end ClaimC5

section ClaimC10

theorem replaceFirst_append {β : Type} (p : β → Bool) (v : β) :
    ∀ (as : List β) (x : β) (bs : List β), (∀ a ∈ as, ¬ p a = true) → p x = true →
      replaceFirst p v (as ++ x :: bs) = as ++ v :: bs := by
  intro as
  induction as with
  | nil =>
    intro x bs _ hx
    simp [replaceFirst, hx]
  | cons a as ih =>
    intro x bs has hx
    have ha : ¬ p a = true := has a (List.mem_cons_self _ _)
    simp only [List.cons_append, replaceFirst, if_neg ha]
    exact congrArg (a :: ·) (ih x bs (fun a' ha' => has a' (List.mem_cons_of_mem _ ha')) hx)

/-- C10: `markLampForReplacement` returns `none` exactly when no lamp with
the given id exists, leaving the state unchanged in that case; for an
existing lamp (found first in the list) it unconditionally forces
`status = replace`, `powerOn = false`, `energyW = 0` — regardless of the
lamp's prior status — keeps every other lamp and every other state component
untouched, and appends an alarm log entry. -/
theorem markLampForReplacement_spec {α : Type} [LinearOrderedCommRing α]
    (s : SysState α) (lampId : ℕ) :
    ((markLampForReplacement s lampId).1 = none ↔ ∀ l ∈ s.lamps, l.id ≠ lampId) ∧
    ((markLampForReplacement s lampId).1 = none → (markLampForReplacement s lampId).2 = s) ∧
    (∀ lamp0, findLamp s lampId = some lamp0 →
      (markLampForReplacement s lampId).1 =
        some { lamp0 with status := LampStatus.replace, powerOn := false, energyW := 0 } ∧
      (∃ pre post, s.lamps = pre ++ lamp0 :: post ∧ (∀ l ∈ pre, l.id ≠ lampId) ∧
        (markLampForReplacement s lampId).2.lamps =
          pre ++ { lamp0 with status := LampStatus.replace, powerOn := false,
                              energyW := 0 } :: post) ∧
      (markLampForReplacement s lampId).2.missions = s.missions ∧
      (markLampForReplacement s lampId).2.drones = s.drones ∧
      (markLampForReplacement s lampId).2.docks = s.docks ∧
      (markLampForReplacement s lampId).2.logs = s.logs ++ [LogKind.alarm]) := by
  cases hfind : findLamp s lampId with
  | none =>
    have heq : markLampForReplacement s lampId = (none, s) := by
      unfold markLampForReplacement
      rw [hfind]
    rw [heq]
    refine ⟨?_, fun _ => rfl, ?_⟩
    · refine iff_of_true rfl ?_
      intro l hl
      have := List.find?_eq_none.mp hfind l hl
      simpa using this
    · intro lamp0 h
      exact Option.noConfusion h
  | some lamp0 =>
    have heq : markLampForReplacement s lampId =
        (some { lamp0 with status := LampStatus.replace, powerOn := false, energyW := 0 },
         addLog
           (updateLamp s
             { lamp0 with status := LampStatus.replace, powerOn := false, energyW := 0 })
           LogKind.alarm) := by
      unfold markLampForReplacement
      rw [hfind]
    obtain ⟨hp, as, bs, hsplit, has⟩ := List.find?_eq_some.mp hfind
    have hid : lamp0.id = lampId := by simpa using hp
    have hmem : lamp0 ∈ s.lamps := by
      rw [hsplit]; exact List.mem_append_right as (List.mem_cons_self _ _)
    rw [heq]
    refine ⟨?_, fun h => Option.noConfusion h, ?_⟩
    · refine iff_of_false (fun h => Option.noConfusion h) ?_
      intro hall
      exact hall lamp0 hmem hid
    · intro lamp1 h1
      have : lamp0 = lamp1 := Option.some.inj h1
      subst this
      refine ⟨rfl, ⟨as, bs, hsplit, ?_, ?_⟩, rfl, rfl, rfl, rfl⟩
      · intro l hl
        have := has l hl
        simpa using this
      · show (updateLamp s _).lamps = _
        unfold updateLamp
        simp only [hsplit]
        refine replaceFirst_append _ _ as lamp0 bs ?_ ?_
        · intro a hamem
          have := has a hamem
          simpa [hid] using this
        · simp [hid]

/-- Witness for C10 at a concrete state whose lamp is mid-replacement
(`in_progress`): the forced transition applies regardless of prior status. -/
theorem markLampForReplacement_spec_witness :
    (findLamp c10State 7 = some c10Lamp) ∧
      ((markLampForReplacement c10State 7).1 =
        some { c10Lamp with status := LampStatus.replace, powerOn := false, energyW := 0 } ∧
      (∃ pre post, c10State.lamps = pre ++ c10Lamp :: post ∧ (∀ l ∈ pre, l.id ≠ 7) ∧
        (markLampForReplacement c10State 7).2.lamps =
          pre ++ { c10Lamp with status := LampStatus.replace, powerOn := false,
                                energyW := 0 } :: post) ∧
      (markLampForReplacement c10State 7).2.missions = c10State.missions ∧
      (markLampForReplacement c10State 7).2.drones = c10State.drones ∧
      (markLampForReplacement c10State 7).2.docks = c10State.docks ∧
      (markLampForReplacement c10State 7).2.logs = c10State.logs ++ [LogKind.alarm]) :=
  ⟨by decide, (markLampForReplacement_spec c10State 7).2.2 c10Lamp (by decide)⟩

end ClaimC10

section ClaimC2

theorem moveDroneToDockIfAvailable_status {α : Type} [LinearOrderedCommRing α]
    (s : SysState α) (dr : Drone α) :
    (moveDroneToDockIfAvailable s dr).status = dr.status := by
  unfold moveDroneToDockIfAvailable
  cases getActiveDock s dr <;> rfl

/-- C2 amended: `tryStartMission` checks its preconditions in order — a
missing mission gives `NotFound` (404), a `running`/`completed` mission gives
`InvalidState` (400) with the state untouched; and when no drone is
simultaneously operational, at or above the minimum flight battery, in
`idle`/`charging` status and not mid-service, it returns
`ResourceUnavailable` (409) after flipping EVERY drone with battery below 100
to `charging` (snapping it to its dock) — regardless of the drone's prior
status, not only the under-charged idle ones, which is the correction to the
claim. -/
theorem tryStartMission_precondition_outcomes {α : Type} [LinearOrderedCommRing α]
    (d : Dist α) (now : ℕ) (s : SysState α) (mid : ℕ) :
    (findMission s mid = none →
      tryStartMission d now s mid = (StartResult.err StartFailure.notFound, s)) ∧
    (∀ m, findMission s mid = some m → m.status = MissionStatus.running →
      tryStartMission d now s mid = (StartResult.err StartFailure.alreadyRunning, s)) ∧
    (∀ m, findMission s mid = some m → m.status = MissionStatus.completed →
      tryStartMission d now s mid = (StartResult.err StartFailure.alreadyCompleted, s)) ∧
    (∀ m, findMission s mid = some m → m.status ≠ MissionStatus.running →
      m.status ≠ MissionStatus.completed → getReadyDronesForMission s = [] →
      tryStartMission d now s mid =
        (StartResult.err StartFailure.noReadyDrones,
         { s with drones := s.drones.map (fun dr =>
             if dr.battery < 100 then
               moveDroneToDockIfAvailable s { dr with status := DroneStatus.charging }
             else dr) }) ∧
      ∀ dr' ∈ (tryStartMission d now s mid).2.drones,
        dr'.status = DroneStatus.charging ∨ (dr' ∈ s.drones ∧ ¬ dr'.battery < 100)) := by
  refine ⟨?_, ?_, ?_, ?_⟩
  · intro hfind
    unfold tryStartMission
    rw [hfind]
  · intro m hfind hrun
    unfold tryStartMission
    rw [hfind]
    dsimp only
    rw [if_pos hrun]
  · intro m hfind hcomp
    unfold tryStartMission
    rw [hfind]
    dsimp only
    have hrun : ¬ m.status = MissionStatus.running := by
      rw [hcomp]; intro h; exact MissionStatus.noConfusion h
    rw [if_neg hrun, if_pos hcomp]
  · intro m hfind hrun hcomp hready
    have heq : tryStartMission d now s mid =
        (StartResult.err StartFailure.noReadyDrones,
         { s with drones := s.drones.map (fun dr =>
             if dr.battery < 100 then
               moveDroneToDockIfAvailable s { dr with status := DroneStatus.charging }
             else dr) }) := by
      unfold tryStartMission
      rw [hfind]
      dsimp only
      rw [if_neg hrun, if_neg hcomp, hready]
      simp
    refine ⟨heq, ?_⟩
    intro dr' hdr'
    rw [heq] at hdr'
    simp only [List.mem_map] at hdr'
    obtain ⟨dr0, hdr0, hdr0eq⟩ := hdr'
    by_cases hb : dr0.battery < 100
    · left
      rw [← hdr0eq]
      simp only [if_pos hb]
      rw [moveDroneToDockIfAvailable_status]
    · right
      rw [← hdr0eq]
      simp only [if_neg hb]
      exact ⟨hdr0, hb⟩

/-- C2 counterexample: with a single mid-service (`servicing`) drone at 50%
battery, the `ResourceUnavailable` path flips that drone to `charging` (its
`serviceEndsAt` deadline left dangling), although the claim says only
under-charged idle drones are flipped and all other drones' statuses are
unchanged. -/
theorem tryStartMission_flips_servicing_drone :
    c2Drone.status = DroneStatus.servicing ∧ c2Drone.battery < 100 ∧
    (tryStartMission zeroDist 0 c2State 1).1 = StartResult.err StartFailure.noReadyDrones ∧
    ((tryStartMission zeroDist 0 c2State 1).2.drones.map Drone.status) =
      [DroneStatus.charging] ∧
    ((tryStartMission zeroDist 0 c2State 1).2.drones.map Drone.serviceEndsAt) =
      [some 99999] := by
  refine ⟨by decide, by decide, by decide, by decide, by decide⟩

/-- Witness for C2 at the concrete mid-service state. -/
theorem tryStartMission_precondition_outcomes_witness :
    (findMission c2State 1 = some plannedMission5 ∧
      plannedMission5.status ≠ MissionStatus.running ∧
      plannedMission5.status ≠ MissionStatus.completed ∧
      getReadyDronesForMission c2State = []) ∧
    (tryStartMission zeroDist 0 c2State 1 =
      (StartResult.err StartFailure.noReadyDrones,
       { c2State with drones := c2State.drones.map (fun dr =>
           if dr.battery < 100 then
             moveDroneToDockIfAvailable c2State { dr with status := DroneStatus.charging }
           else dr) }) ∧
      ∀ dr' ∈ (tryStartMission zeroDist 0 c2State 1).2.drones,
        dr'.status = DroneStatus.charging ∨ (dr' ∈ c2State.drones ∧ ¬ dr'.battery < 100)) :=
  ⟨⟨by decide, by decide, by decide, by decide⟩,
   (tryStartMission_precondition_outcomes zeroDist 0 c2State 1).2.2.2 plannedMission5
     (by decide) (by decide) (by decide) (by decide)⟩

end ClaimC2

section ClaimC9

theorem findMission_id {α : Type} [LinearOrderedCommRing α] {s : SysState α} {mid : ℕ}
    {m : Mission} (hfind : findMission s mid = some m) : m.id = mid := by
  obtain ⟨hp, _, _, _, _⟩ := List.find?_eq_some.mp hfind
  simpa using hp

theorem dispatchMissionRoutes_status {α : Type} [LinearOrderedCommRing α] (d : Dist α)
    (s : SysState α) (m : Mission) (readyDrones : List (Drone α)) :
    (dispatchMissionRoutes d s m readyDrones).status = m.status := by
  unfold dispatchMissionRoutes
  by_cases h1 : m.source = MissionSource.manual
  · simp [h1]
  · by_cases h2 : m.droneRoutes.isEmpty
    · simp [h1, h2]
    · simp [h1, h2]

theorem dispatchMissionRoutes_id {α : Type} [LinearOrderedCommRing α] (d : Dist α)
    (s : SysState α) (m : Mission) (readyDrones : List (Drone α)) :
    (dispatchMissionRoutes d s m readyDrones).id = m.id := by
  unfold dispatchMissionRoutes
  by_cases h1 : m.source = MissionSource.manual
  · simp [h1]
  · by_cases h2 : m.droneRoutes.isEmpty
    · simp [h1, h2]
    · simp [h1, h2]

/-- C9: the `NoRoute` failure of `tryStartMission` is not atomic for a
planned manual mission: when the conflict filter leaves no drone with a
route, the call fails with the no-routes error (HTTP 400) but the mission —
still `planned` — has already had its `routeLampIds` overwritten to the empty
list and its `droneRoutes` replaced by the freshly recomputed capacity-aware
assignment over the ready drones; the pre-call routes are not restored. -/
theorem tryStartMission_noRoute_not_atomic {α : Type} [LinearOrderedCommRing α]
    (d : Dist α) (now : ℕ) (s : SysState α) (mid : ℕ) (m : Mission)
    (hfind : findMission s mid = some m)
    (hsrc : m.source = MissionSource.manual)
    (hplanned : m.status = MissionStatus.planned)
    (hready : getReadyDronesForMission s ≠ [])
    (hempty : dispatchActiveRoutes d s m (getReadyDronesForMission s) = []) :
    tryStartMission d now s mid =
      (StartResult.err StartFailure.noRoutes,
       updateMission s mid (fun _ =>
         { m with routeLampIds := [],
                  droneRoutes := (buildCapacityAwareRoutes d
                    (m.routeLampIds.filterMap (fun lid => (findLamp s lid).map Lamp.toPoint))
                    (getReadyDronesForMission s)).droneRoutes })) := by
  have hrun : ¬ m.status = MissionStatus.running := by
    rw [hplanned]; intro h; exact MissionStatus.noConfusion h
  have hcomp : ¬ m.status = MissionStatus.completed := by
    rw [hplanned]; intro h; exact MissionStatus.noConfusion h
  have hlen : ¬ (getReadyDronesForMission s).length = 0 := by
    intro h; exact hready (List.length_eq_zero.mp h)
  unfold tryStartMission
  rw [hfind]
  dsimp only
  rw [if_neg hrun, if_neg hcomp, if_neg hlen]
  simp only [tryStartMissionGo]
  rw [hempty]
  simp only [List.isEmpty_nil, if_true, List.map_nil, List.flatten_nil]
  unfold dispatchMissionRoutes
  rw [if_pos hsrc]

/-- Witness for C9: concrete planned manual mission whose single lamp was
restored to `ok` before the start; the call fails with `NoRoute`, yet the
mission's `routeLampIds` is wiped and its stale pre-call route map
`[(9, [5])]` is replaced by the recomputed `[(1, [5])]`. -/
theorem tryStartMission_noRoute_not_atomic_witness :
    (findMission c9State 1 = some plannedMission5 ∧
      plannedMission5.source = MissionSource.manual ∧
      plannedMission5.status = MissionStatus.planned ∧
      getReadyDronesForMission c9State ≠ [] ∧
      dispatchActiveRoutes zeroDist c9State plannedMission5
        (getReadyDronesForMission c9State) = []) ∧
    tryStartMission zeroDist 0 c9State 1 =
      (StartResult.err StartFailure.noRoutes,
       updateMission c9State 1 (fun _ =>
         { plannedMission5 with
             routeLampIds := [],
             droneRoutes := (buildCapacityAwareRoutes zeroDist
               (plannedMission5.routeLampIds.filterMap
                 (fun lid => (findLamp c9State lid).map Lamp.toPoint))
               (getReadyDronesForMission c9State)).droneRoutes })) :=
  ⟨⟨by decide, by decide, by decide, by decide, by decide⟩,
   tryStartMission_noRoute_not_atomic zeroDist 0 c9State 1 plannedMission5
     (by decide) (by decide) (by decide) (by decide) (by decide)⟩

end ClaimC9

section ClaimC1

/-- C1 counterexample: the dispatch itself can create a state in which a lamp
with `replace` status sits in the `routeLampIds` of two running missions.
Mission 1 is running with lamp 5 in its route but already completed; lamp 5
has been re-failed back to `replace`; `getOccupiedLampIds` skips completed
route entries, so starting the planned mission 2 (which routes lamp 5)
succeeds — after the call, two running missions' routes reference the
replace-status lamp 5, refuting the claim as stated (it holds only for the
pending, not-yet-completed parts of the routes). -/
theorem tryStartMission_double_references_lamp :
    (findLamp c1State 5).map Lamp.status = some LampStatus.replace ∧
    (c1State.missions.filter (fun m =>
        decide (m.status = MissionStatus.running) && m.routeLampIds.contains 5)).length = 1 ∧
    (tryStartMission zeroDist 100 c1State 2).1 = StartResult.ok ∧
    (findLamp (tryStartMission zeroDist 100 c1State 2).2 5).map Lamp.status =
      some LampStatus.replace ∧
    ((tryStartMission zeroDist 100 c1State 2).2.missions.filter (fun m =>
        decide (m.status = MissionStatus.running) && m.routeLampIds.contains 5)).length
      = 2 := by
  refine ⟨by decide, by decide, by decide, by decide, by decide⟩

theorem filterRoute_mem {α : Type} [LinearOrderedCommRing α] (s : SysState α)
    (occupied : ℕ → Bool) :
    ∀ (route assigned : List ℕ) (lid : ℕ), lid ∈ (filterRoute s occupied assigned route).1 →
      occupied lid = false ∧
        ∃ lamp, findLamp s lid = some lamp ∧ lamp.status = LampStatus.replace := by
  intro route
  induction route with
  | nil =>
    intro assigned lid h
    simp [filterRoute] at h
  | cons x rest ih =>
    intro assigned lid h
    unfold filterRoute at h
    by_cases h1 : (occupied x || assigned.contains x) = true
    · rw [if_pos h1] at h
      exact ih assigned lid h
    · rw [if_neg h1] at h
      cases hfind : findLamp s x with
      | none =>
        rw [hfind] at h
        exact ih assigned lid h
      | some lamp =>
        rw [hfind] at h
        dsimp only at h
        by_cases h2 : lamp.status = LampStatus.replace
        · rw [if_pos h2] at h
          rcases List.mem_cons.mp h with rfl | h
          · refine ⟨?_, lamp, hfind, h2⟩
            cases hocc : occupied lid
            · rfl
            · exact absurd (by rw [Bool.or_eq_true]; exact Or.inl hocc) h1
          · exact ih (assigned ++ [x]) lid h
        · rw [if_neg h2] at h
          exact ih assigned lid h

theorem buildActiveRoutes_mem {α : Type} [LinearOrderedCommRing α] (s : SysState α)
    (occupied : ℕ → Bool) (missionRoutes : List (ℕ × List ℕ)) :
    ∀ (readyDrones : List (Drone α)) (e : ℕ × List ℕ),
      e ∈ buildActiveRoutes s occupied missionRoutes readyDrones →
      ∀ lid ∈ e.2, occupied lid = false ∧
        ∃ lamp, findLamp s lid = some lamp ∧ lamp.status = LampStatus.replace := by
  have key : ∀ (drones : List (Drone α)) (acc : List (ℕ × List ℕ) × List ℕ),
      (∀ e ∈ acc.1, ∀ lid ∈ e.2, occupied lid = false ∧
        ∃ lamp, findLamp s lid = some lamp ∧ lamp.status = LampStatus.replace) →
      ∀ e ∈ (drones.foldl
        (fun (acc : List (ℕ × List ℕ) × List ℕ) dr =>
          let route0 := assocGetD missionRoutes dr.id []
          let res := filterRoute s occupied acc.2 route0
          (if res.1.isEmpty then acc.1 else acc.1 ++ [(dr.id, res.1)], res.2)) acc).1,
        ∀ lid ∈ e.2, occupied lid = false ∧
          ∃ lamp, findLamp s lid = some lamp ∧ lamp.status = LampStatus.replace := by
    intro drones
    induction drones with
    | nil => exact fun acc hacc => hacc
    | cons dr drones ih =>
      intro acc hacc
      simp only [List.foldl_cons]
      refine ih _ ?_
      intro e he lid hlid
      by_cases hres :
          (filterRoute s occupied acc.2 (assocGetD missionRoutes dr.id [])).1.isEmpty = true
      · simp only [hres, if_true] at he
        exact hacc e he lid hlid
      · simp only [hres, if_false] at he
        rcases List.mem_append.mp he with he | he
        · exact hacc e he lid hlid
        · rcases List.mem_singleton.mp he with rfl
          exact filterRoute_mem s occupied _ _ lid hlid
  intro readyDrones e he
  exact key readyDrones ([], []) (by simp) e he

theorem mem_pendingRoute {m : Mission} {lid : ℕ} (h : lid ∈ pendingRoute m) :
    lid ∈ m.routeLampIds ∧ lid ∉ m.completedLampIds := by
  have := List.mem_filter.mp h
  refine ⟨this.1, ?_⟩
  have h2 := this.2
  simpa using h2

theorem lampOccupied_of_running_mission {α : Type} [LinearOrderedCommRing α]
    {s : SysState α} {excl : Option ℕ} {m2 : Mission} {lid : ℕ}
    (hm2 : m2 ∈ s.missions) (hne : some m2.id ≠ excl)
    (hrun : m2.status = MissionStatus.running) (hmem : lid ∈ m2.routeLampIds)
    (hnc : lid ∉ m2.completedLampIds) : lampOccupied s excl lid = true := by
  unfold lampOccupied
  rw [Bool.or_eq_true]
  left
  rw [List.any_eq_true]
  refine ⟨m2, hm2, ?_⟩
  simp [hne, hrun, hmem, hnc]

theorem noDoubleAssignment_update_nonrunning {α : Type} [LinearOrderedCommRing α]
    (s : SysState α) (mid : ℕ) (m2 : Mission) (hst : m2.status ≠ MissionStatus.running)
    (hinv : NoDoubleAssignment s) :
    NoDoubleAssignment (updateMission s mid (fun _ => m2)) := by
  constructor
  · show ((s.missions.map (fun m => if m.id = mid then m2 else m)).Pairwise _)
    rw [List.pairwise_map]
    refine List.Pairwise.imp_of_mem ?_ hinv.1
    intro a b ha hb hP
    intro l hl hrep hr1 hr2 hp1 hp2
    by_cases h1 : a.id = mid
    · rw [if_pos h1] at hr1
      exact hst hr1
    · rw [if_neg h1] at hr1 hp1
      by_cases h2 : b.id = mid
      · rw [if_pos h2] at hr2
        exact hst hr2
      · rw [if_neg h2] at hr2 hp2
        exact hP l hl hrep hr1 hr2 hp1 hp2
  · exact hinv.2

theorem tryStartMissionGo_preserves {α : Type} [LinearOrderedCommRing α] (d : Dist α)
    (now : ℕ) (s : SysState α) (mid : ℕ) (mission : Mission)
    (readyDrones : List (Drone α))
    (hfind : findMission s mid = some mission)
    (hrun : mission.status ≠ MissionStatus.running)
    (hnodup : (s.missions.map Mission.id).Nodup)
    (hinv : NoDoubleAssignment s) :
    NoDoubleAssignment (tryStartMissionGo d now s mid mission readyDrones).2 := by
  have hmid : mission.id = mid := findMission_id hfind
  simp only [tryStartMissionGo]
  set AR := dispatchActiveRoutes d s mission readyDrones with hAR
  have hM2status :
      ({ dispatchMissionRoutes d s mission readyDrones with
          routeLampIds := (AR.map Prod.snd).flatten } : Mission).status ≠
        MissionStatus.running := by
    show (dispatchMissionRoutes d s mission readyDrones).status ≠ MissionStatus.running
    rw [dispatchMissionRoutes_status]
    exact hrun
  by_cases hempty : AR.isEmpty = true
  · rw [if_pos hempty]
    exact noDoubleAssignment_update_nonrunning s mid _ hM2status hinv
  · rw [if_neg hempty]
    by_cases hass :
        (readyDrones.filter (fun dr => (AR.map Prod.fst).contains dr.id)).isEmpty = true
    · rw [if_pos hass]
      exact noDoubleAssignment_update_nonrunning s mid _ hM2status hinv
    · rw [if_neg hass]
      set M2 : Mission :=
        { dispatchMissionRoutes d s mission readyDrones with
            routeLampIds := (AR.map Prod.snd).flatten } with hM2
      set M3 : Mission :=
        { M2 with status := MissionStatus.running, startedAt := some now,
                  droneRoutes := AR } with hM3
      have hM2id : M2.id = mid := by
        show (dispatchMissionRoutes d s mission readyDrones).id = mid
        rw [dispatchMissionRoutes_id]
        exact hmid
      have hM3route : M3.routeLampIds = (AR.map Prod.snd).flatten := rfl
      have hgood : ∀ lid ∈ M3.routeLampIds,
          lampOccupied s (some mission.id) lid = false := by
        intro lid hlid
        rw [hM3route] at hlid
        rcases List.mem_flatten.mp hlid with ⟨r, hr, hlidr⟩
        rcases List.mem_map.mp hr with ⟨e, he, rfl⟩
        exact (buildActiveRoutes_mem s _ _ readyDrones e he lid hlidr).1
      constructor
      · have hms : (addLog
            { updateMission (updateMission s mid (fun _ => M2)) mid (fun _ => M3) with
                drones := (updateMission (updateMission s mid (fun _ => M2)) mid
                  (fun _ => M3)).drones.map (fun dr =>
                    if (AR.map Prod.fst).contains dr.id then
                      { moveDroneToDockIfAvailable
                          (updateMission (updateMission s mid (fun _ => M2)) mid
                            (fun _ => M3)) dr with
                          status := DroneStatus.enroute, targetLampId := none }
                    else dr) }
            LogKind.mission).missions =
            s.missions.map (fun m => if m.id = mid then M3 else m) := by
          show (s.missions.map (fun m => if m.id = mid then M2 else m)).map
              (fun m => if m.id = mid then M3 else m) = _
          rw [List.map_map]
          refine List.map_congr_left ?_
          intro m _
          by_cases hm : m.id = mid
          · simp only [Function.comp_apply, if_pos hm, if_pos hM2id]
          · simp only [Function.comp_apply, if_neg hm]
        rw [hms, List.pairwise_map]
        have hIdNe : s.missions.Pairwise (fun a b => a.id ≠ b.id) :=
          List.pairwise_map.mp hnodup
        refine List.Pairwise.imp_of_mem ?_ (hinv.1.and hIdNe)
        intro a b ha hb hPne
        obtain ⟨hP, hne⟩ := hPne
        intro l hl hrep hr1 hr2 hp1 hp2
        by_cases h1 : a.id = mid
        · rw [if_pos h1] at hr1 hp1
          have h2 : ¬ b.id = mid := by
            intro h2
            exact hne (by rw [h1, h2])
          rw [if_neg h2] at hr2 hp2
          have hpm := mem_pendingRoute hp1
          have hmemM3 : l.id ∈ M3.routeLampIds := hpm.1
          have hocc := hgood l.id hmemM3
          have hpm2 := mem_pendingRoute hp2
          have : lampOccupied s (some mission.id) l.id = true := by
            refine lampOccupied_of_running_mission hb ?_ hr2 hpm2.1 hpm2.2
            rw [hmid]
            intro hcontra
            exact h2 (by simpa using hcontra)
          rw [this] at hocc
          exact Bool.noConfusion hocc
        · rw [if_neg h1] at hr1 hp1
          by_cases h2 : b.id = mid
          · rw [if_pos h2] at hr2 hp2
            have hpm := mem_pendingRoute hp2
            have hmemM3 : l.id ∈ M3.routeLampIds := hpm.1
            have hocc := hgood l.id hmemM3
            have hpm1 := mem_pendingRoute hp1
            have : lampOccupied s (some mission.id) l.id = true := by
              refine lampOccupied_of_running_mission ha ?_ hr1 hpm1.1 hpm1.2
              rw [hmid]
              intro hcontra
              exact h1 (by simpa using hcontra)
            rw [this] at hocc
            exact Bool.noConfusion hocc
          · rw [if_neg h2] at hr2 hp2
            exact hP l hl hrep hr1 hr2 hp1 hp2
      · show ((s.drones.map _).Pairwise _)
        rw [List.pairwise_map]
        refine List.Pairwise.imp_of_mem ?_ hinv.2
        intro a b ha hb hP
        intro l hl hrep h1 h2
        by_cases ha1 : ((AR.map Prod.fst).contains a.id) = true
        · rw [if_pos ha1] at h1
          exact Option.noConfusion h1.2
        · rw [if_neg ha1] at h1
          by_cases hb1 : ((AR.map Prod.fst).contains b.id) = true
          · rw [if_pos hb1] at h2
            exact Option.noConfusion h2.2
          · rw [if_neg hb1] at h2
            exact hP l hl hrep h1 h2

/-- C1 amended: the no-double-assignment invariant holds for the pending
(not yet completed) parts of running missions' routes and for active drone
targets, and `tryStartMission` preserves it on every path: the occupied-lamp
set it consults is recomputed by `lampOccupied` from the running missions and
the active drone targets of the current state at the moment of the call — the
state carries no cached copy — and every committed route entry was checked
against that set.  (The literal reading over full `routeLampIds`, including
completed entries, is refuted by the counterexample.) -/
theorem tryStartMission_preserves_noDoubleAssignment {α : Type}
    [LinearOrderedCommRing α] (d : Dist α) (now : ℕ) (s : SysState α) (mid : ℕ)
    (hnodup : (s.missions.map Mission.id).Nodup)
    (hinv : NoDoubleAssignment s) :
    NoDoubleAssignment (tryStartMission d now s mid).2 := by
  unfold tryStartMission
  cases hfind : findMission s mid with
  | none => exact hinv
  | some mission =>
    dsimp only
    by_cases hrun : mission.status = MissionStatus.running
    · rw [if_pos hrun]
      exact hinv
    · rw [if_neg hrun]
      by_cases hcomp : mission.status = MissionStatus.completed
      · rw [if_pos hcomp]
        exact hinv
      · rw [if_neg hcomp]
        by_cases hready : (getReadyDronesForMission s).length = 0
        · rw [if_pos hready]
          constructor
          · exact hinv.1
          · show ((s.drones.map _).Pairwise _)
            rw [List.pairwise_map]
            refine List.Pairwise.imp_of_mem ?_ hinv.2
            intro a b ha hb hP
            intro l hl hrep h1 h2
            by_cases ha1 : a.battery < 100
            · rw [if_pos ha1] at h1
              rcases h1.1 with hst | hst
              · rw [moveDroneToDockIfAvailable_status] at hst
                exact DroneStatus.noConfusion hst
              · rw [moveDroneToDockIfAvailable_status] at hst
                exact DroneStatus.noConfusion hst
            · rw [if_neg ha1] at h1
              by_cases hb1 : b.battery < 100
              · rw [if_pos hb1] at h2
                rcases h2.1 with hst | hst
                · rw [moveDroneToDockIfAvailable_status] at hst
                  exact DroneStatus.noConfusion hst
                · rw [moveDroneToDockIfAvailable_status] at hst
                  exact DroneStatus.noConfusion hst
              · rw [if_neg hb1] at h2
                exact hP l hl hrep h1 h2
        · rw [if_neg hready]
          exact tryStartMissionGo_preserves d now s mid mission
            (getReadyDronesForMission s) hfind hrun hnodup hinv

/-- Witness for C1 at a concrete state (a planned mission over a fresh lamp,
one running-free mission list), with the invariant discharged directly. -/
theorem tryStartMission_preserves_noDoubleAssignment_witness :
    ((c9State.missions.map Mission.id).Nodup ∧ NoDoubleAssignment c9State) ∧
      NoDoubleAssignment (tryStartMission zeroDist 0 c9State 1).2 :=
  ⟨⟨by decide,
    ⟨List.Pairwise.cons (fun b hb => absurd hb (List.not_mem_nil b)) List.Pairwise.nil,
     List.Pairwise.cons (fun b hb => absurd hb (List.not_mem_nil b)) List.Pairwise.nil⟩⟩,
   tryStartMission_preserves_noDoubleAssignment zeroDist 0 c9State 1 (by decide)
     ⟨List.Pairwise.cons (fun b hb => absurd hb (List.not_mem_nil b)) List.Pairwise.nil,
      List.Pairwise.cons (fun b hb => absurd hb (List.not_mem_nil b)) List.Pairwise.nil⟩⟩

end ClaimC1

section ClaimC7

/-- C7 counterexample: the interruption aborts the queue and clears the
target, but when the low-battery drone is already at its dock the same tick
completes the return, so the drone ends the tick `charging`, not `enroute`
as the claim states. -/
theorem lowBatteryInterrupt_at_dock_ends_charging :
    c7Drone.battery ≤ RETURN_TO_DOCK_BATTERY_THRESHOLD ∧
    c7Worker.targetLampId.isSome = true ∧
    c7Drone.status ≠ DroneStatus.replacing ∧
    (missionWorkerTick 1 stayPut 1000 0 0 c7State 3 c7Worker).1.queue = [] ∧
    (missionWorkerTick 1 stayPut 1000 0 0 c7State 3 c7Worker).1.targetLampId = none ∧
    ((missionWorkerTick 1 stayPut 1000 0 0 c7State 3 c7Worker).2.drones.map Drone.status)
      = [DroneStatus.charging] ∧
    (missionWorkerTick 1 stayPut 1000 0 0 c7State 3 c7Worker).2.lamps = c7State.lamps := by
  refine ⟨by decide, by decide, by decide, by decide, by decide, by decide, by decide⟩

/-- C7 amended: on a mission tick with battery at or below the return
threshold, an active target, and the drone not `replacing` — and the drone
strictly farther than one movement step from its dock — the worker's queue is
emptied, both targets are cleared, the drone ends the tick `enroute`, stepped
toward its dock, and the lamps (in particular the interrupted target lamp)
are untouched.  When the drone is already within one step of its dock the
same tick completes the return instead (see the counterexample). -/
theorem lowBatteryInterrupt_heads_to_dock {α : Type} [LinearOrderedCommRing α]
    (step : α) (stepToward : Pos α → Pos α → Pos α) (now drainRand energyRand : ℕ)
    (s : SysState α) (mid : ℕ) (w : Worker) (drone : Drone α) (dock : Dock α)
    (hfind : findDrone s w.droneId = some drone)
    (hw : w.completed = false)
    (hop : drone.isOperational = true)
    (hbat : drone.battery ≤ RETURN_TO_DOCK_BATTERY_THRESHOLD)
    (ht : w.targetLampId.isSome = true)
    (hnr : drone.status ≠ DroneStatus.replacing)
    (hdock : getActiveDock s drone = some dock)
    (hfar : ¬ ((dock.pos.lat - drone.position.lat) * (dock.pos.lat - drone.position.lat) +
        (dock.pos.lng - drone.position.lng) * (dock.pos.lng - drone.position.lng) ≤
        step * step)) :
    missionWorkerTick step stepToward now drainRand energyRand s mid w =
      ({ w with queue := [], targetLampId := none, returning := true },
       updateDrone
         (addLog
           (updateDrone s { drone with targetLampId := none, status := DroneStatus.enroute })
           LogKind.drone)
         { drone with targetLampId := none, status := DroneStatus.enroute,
                      position := stepToward drone.position dock.pos }) ∧
    (missionWorkerTick step stepToward now drainRand energyRand s mid w).2.lamps =
      s.lamps ∧
    (missionWorkerTick step stepToward now drainRand energyRand s mid w).2.missions =
      s.missions := by
  have hc1 : (w.completed || !drone.isOperational) = false := by
    rw [hw, hop]
    rfl
  have hc2 : (decide (drone.battery ≤ RETURN_TO_DOCK_BATTERY_THRESHOLD)
      && w.targetLampId.isSome && decide (drone.status ≠ DroneStatus.replacing)) = true := by
    rw [ht]
    simp [hbat, hnr]
  have harr : moveDroneTowards step stepToward drone.position dock.pos =
      (stepToward drone.position dock.pos, false) := by
    unfold moveDroneTowards
    rw [if_neg hfar]
  have hmain : missionWorkerTick step stepToward now drainRand energyRand s mid w =
      ({ w with queue := [], targetLampId := none, returning := true },
       updateDrone
         (addLog
           (updateDrone s { drone with targetLampId := none, status := DroneStatus.enroute })
           LogKind.drone)
         { drone with targetLampId := none, status := DroneStatus.enroute,
                      position := stepToward drone.position dock.pos }) := by
    unfold missionWorkerTick
    rw [hfind]
    dsimp only
    simp only [hc1, hc2, Bool.false_eq_true, eq_self_iff_true, if_false, if_true]
    have hdock1 : getActiveDock
        (addLog (updateDrone s { drone with targetLampId := none, status := DroneStatus.enroute })
          LogKind.drone)
        { drone with targetLampId := none, status := DroneStatus.enroute } = some dock := hdock
    rw [hdock1]
    dsimp only
    rw [harr]
    simp only [Bool.false_eq_true, if_false]
  exact ⟨hmain, by rw [hmain]; rfl, by rw [hmain]; rfl⟩

/-- Witness for C7 at a concrete far-from-dock configuration. -/
theorem lowBatteryInterrupt_heads_to_dock_witness :
    (findDrone c1State 2 = some c1BusyDrone ∧ c1BusyDrone.isOperational = true ∧
      getActiveDock c1State c1BusyDrone = some dock1) ∧
    missionWorkerTick 1 stayPut 1000 0 0
        { c1State with drones := [{ c1BusyDrone with battery := 24 }] } 1
        { droneId := 2, queue := [6], targetLampId := some 6, replaceStartedAt := 0,
          replacedCount := 0, returning := false, completed := false } =
      (({ droneId := 2, queue := [], targetLampId := none, replaceStartedAt := 0,
          replacedCount := 0, returning := true, completed := false } : Worker),
       updateDrone
         (addLog
           (updateDrone { c1State with drones := [{ c1BusyDrone with battery := 24 }] }
             { { c1BusyDrone with battery := 24 } with
                 targetLampId := none, status := DroneStatus.enroute })
           LogKind.drone)
         { { c1BusyDrone with battery := 24 } with
             targetLampId := none, status := DroneStatus.enroute,
             position := stayPut { c1BusyDrone with battery := 24 }.position dock1.pos }) := by
  refine ⟨⟨by decide, by decide, by decide⟩, ?_⟩
  exact (lowBatteryInterrupt_heads_to_dock 1 stayPut 1000 0 0
    { c1State with drones := [{ c1BusyDrone with battery := 24 }] } 1
    { droneId := 2, queue := [6], targetLampId := some 6, replaceStartedAt := 0,
      replacedCount := 0, returning := false, completed := false }
    { c1BusyDrone with battery := 24 } dock1
    (by decide) (by decide) (by decide) (by decide) (by decide) (by decide)
    (by decide) (by decide)).1

end ClaimC7

section ClaimC3

theorem addLog_drones {α : Type} [LinearOrderedCommRing α] (s : SysState α) (k : LogKind) :
    (addLog s k).drones = s.drones := rfl

theorem updateLamp_drones {α : Type} [LinearOrderedCommRing α] (s : SysState α) (l : Lamp α) :
    (updateLamp s l).drones = s.drones := rfl

theorem updateMission_drones {α : Type} [LinearOrderedCommRing α] (s : SysState α) (mid : ℕ)
    (f : Mission → Mission) : (updateMission s mid f).drones = s.drones := rfl

theorem updateDock_drones {α : Type} [LinearOrderedCommRing α] (s : SysState α) (dk : Dock α) :
    (updateDock s dk).drones = s.drones := rfl

theorem mem_drones_updateDrone {α : Type} [LinearOrderedCommRing α] {s : SysState α}
    {dnew dr' : Drone α} (h : dr' ∈ (updateDrone s dnew).drones) :
    dr' ∈ s.drones ∨ dr' = dnew := by
  unfold updateDrone at h
  dsimp only at h
  rw [List.mem_map] at h
  obtain ⟨x, hx, hxeq⟩ := h
  by_cases hid : x.id = dnew.id
  · rw [if_pos hid] at hxeq
    exact Or.inr hxeq.symm
  · rw [if_neg hid] at hxeq
    exact Or.inl (hxeq ▸ hx)

theorem findDrone_mem {α : Type} [LinearOrderedCommRing α] {s : SysState α} {did : ℕ}
    {dr : Drone α} (h : findDrone s did = some dr) : dr ∈ s.drones := by
  unfold findDrone at h
  exact List.mem_of_find?_eq_some h

theorem moveDroneToDockIfAvailable_container {α : Type} [LinearOrderedCommRing α]
    (s : SysState α) (dr : Drone α) :
    (moveDroneToDockIfAvailable s dr).containerLampsRemaining = dr.containerLampsRemaining := by
  unfold moveDroneToDockIfAvailable
  cases getActiveDock s dr <;> rfl

theorem moveDroneToDockIfAvailable_id {α : Type} [LinearOrderedCommRing α]
    (s : SysState α) (dr : Drone α) :
    (moveDroneToDockIfAvailable s dr).id = dr.id := by
  unfold moveDroneToDockIfAvailable
  cases getActiveDock s dr <;> rfl

theorem forall₂_pointUpdate {α : Type} [LinearOrderedCommRing α]
    {R : Drone α → Drone α → Prop} {ds : List (Drone α)} {X drone0 : Drone α}
    (hids : (ds.map Drone.id).Nodup) (hmem0 : drone0 ∈ ds) (hXid : X.id = drone0.id)
    (hrefl : ∀ dr0 ∈ ds, R dr0 dr0) (hX : R drone0 X) :
    List.Forall₂ R ds (ds.map (fun x => if x.id = X.id then X else x)) := by
  refine List.forall₂_map_right_iff.mpr (List.forall₂_same.mpr ?_)
  intro dr0 hm
  show R dr0 (if dr0.id = X.id then X else dr0)
  by_cases hid : dr0.id = X.id
  · rw [if_pos hid]
    have heq : dr0 = drone0 := List.inj_on_of_nodup_map hids hm hmem0 (hid.trans hXid)
    rw [heq]
    exact hX
  · rw [if_neg hid]
    exact hrefl dr0 hm

theorem forall₂_pointUpdate2 {α : Type} [LinearOrderedCommRing α]
    {R : Drone α → Drone α → Prop} {ds : List (Drone α)} {X Y drone0 : Drone α}
    (hids : (ds.map Drone.id).Nodup) (hmem0 : drone0 ∈ ds)
    (hXid : X.id = drone0.id) (hYid : Y.id = drone0.id)
    (hrefl : ∀ dr0 ∈ ds, R dr0 dr0) (hX : R drone0 X) :
    List.Forall₂ R ds
      ((ds.map (fun x => if x.id = Y.id then Y else x)).map
        (fun x => if x.id = X.id then X else x)) := by
  rw [List.map_map]
  refine List.forall₂_map_right_iff.mpr (List.forall₂_same.mpr ?_)
  intro dr0 hm
  show R dr0 (if (if dr0.id = Y.id then Y else dr0).id = X.id then X
    else if dr0.id = Y.id then Y else dr0)
  by_cases hid : dr0.id = Y.id
  · rw [if_pos hid, if_pos (show Y.id = X.id from hYid.trans hXid.symm)]
    have heq : dr0 = drone0 := List.inj_on_of_nodup_map hids hm hmem0 (hid.trans hYid)
    rw [heq]
    exact hX
  · rw [if_neg hid,
      if_neg (show ¬dr0.id = X.id from fun h => hid (h.trans (hXid.trans hYid.symm)))]
    exact hrefl dr0 hm

/-- C3 counterexample: a drone with two pending container operations (two
dock arrivals with an empty container before its service window closed)
comes out of the completed dock service with
`containerLampsRemaining = LAMPS_PER_CONTAINER * 2 = 10`, strictly above the
claimed `[0, CAPACITY]` range. -/
theorem containerReset_exceeds_capacity :
    c3Drone.pendingContainerOps = 2 ∧
    ((globalDroneStep 100 c3State 1).drones.map
      (fun dr => dr.containerLampsRemaining)) = [10] ∧
    LAMPS_PER_CONTAINER < 10 := by
  refine ⟨by decide, by decide, by decide⟩

/-- C3 amended: across the three operations that ever touch a container —
the mission worker tick, the global servicing/charging tick, and the
replace-all endpoint — each drone (position-by-position, under distinct
drone ids) relates to its own post-state as follows: (i) in a mission worker
tick its `containerLampsRemaining` is unchanged, or decremented by exactly
one and only if that same drone was in `replacing` status (a cassette
replacement completing); (ii) in a global tick it is unchanged, or reset to
`LAMPS_PER_CONTAINER * pendingContainerOps` and only if that same drone was
`servicing` with its service deadline passed and container operations
pending (a completed dock service) — a multiple of the capacity, but NOT
bounded by it when several operations are pending; and (iii) the replace-all
endpoint forces every drone's container to exactly `LAMPS_PER_CONTAINER`. -/
theorem containerLampsRemaining_lifecycle {α : Type} [LinearOrderedCommRing α]
    (step : α) (stepToward : Pos α → Pos α → Pos α) (now drainRand energyRand : ℕ)
    (s : SysState α) (mid : ℕ) (w : Worker) (gnow : ℕ) (gs : SysState α) (did : ℕ)
    (rnow : ℕ) (rs : SysState α)
    (hids : (s.drones.map Drone.id).Nodup)
    (hgids : (gs.drones.map Drone.id).Nodup) :
    List.Forall₂ ContainerTickRel s.drones
      (missionWorkerTick step stepToward now drainRand energyRand s mid w).2.drones ∧
    List.Forall₂ (ContainerServiceRel gnow) gs.drones
      (globalDroneStep gnow gs did).drones ∧
    (∀ dr' ∈ (replaceAllContainers rnow rs).drones,
      dr'.containerLampsRemaining = LAMPS_PER_CONTAINER) := by
  have hreflTick : ∀ (t : SysState α), ∀ dr0 ∈ t.drones, ContainerTickRel dr0 dr0 :=
    fun _ dr0 _ => Or.inl rfl
  have hreflServ : ∀ (t : SysState α), ∀ dr0 ∈ t.drones, ContainerServiceRel gnow dr0 dr0 :=
    fun _ dr0 _ => Or.inl rfl
  refine ⟨?_, ?_, ?_⟩
  · unfold missionWorkerTick
    cases hfd : findDrone s w.droneId with
    | none => exact List.forall₂_same.mpr (hreflTick s)
    | some drone0 =>
      have hmem0 : drone0 ∈ s.drones := findDrone_mem hfd
      dsimp only
      by_cases hc : (w.completed || !drone0.isOperational) = true
      · rw [if_pos hc]
        exact List.forall₂_same.mpr (hreflTick s)
      · rw [if_neg hc]
        by_cases hi : (decide (drone0.battery ≤ RETURN_TO_DOCK_BATTERY_THRESHOLD)
            && w.targetLampId.isSome && decide (drone0.status ≠ DroneStatus.replacing)) = true
        · simp only [hi, eq_self_iff_true, if_true]
          split
          · exact forall₂_pointUpdate2 hids hmem0 rfl rfl (hreflTick s) (Or.inl rfl)
          · split
            · split
              · exact forall₂_pointUpdate2 hids hmem0 rfl rfl (hreflTick s) (Or.inl rfl)
              · exact forall₂_pointUpdate2 hids hmem0 rfl rfl (hreflTick s) (Or.inl rfl)
            · exact forall₂_pointUpdate2 hids hmem0 rfl rfl (hreflTick s) (Or.inl rfl)
        · rw [Bool.not_eq_true] at hi
          simp only [hi, Bool.false_eq_true, if_false]
          split
          · split
            · exact forall₂_pointUpdate hids hmem0 rfl (hreflTick s) (Or.inl rfl)
            · split
              · exact forall₂_pointUpdate hids hmem0 rfl (hreflTick s) (Or.inl rfl)
              · split
                · split
                  · exact List.forall₂_same.mpr (hreflTick s)
                  · rename_i hrep _
                    exact forall₂_pointUpdate hids hmem0 rfl (hreflTick s)
                      (Or.inr ⟨hrep, rfl⟩)
                · split
                  · split
                    · exact forall₂_pointUpdate hids hmem0 rfl (hreflTick s) (Or.inl rfl)
                    · split
                      · exact forall₂_pointUpdate hids hmem0 rfl (hreflTick s) (Or.inl rfl)
                      · exact forall₂_pointUpdate hids hmem0 rfl (hreflTick s) (Or.inl rfl)
                  · exact forall₂_pointUpdate hids hmem0 rfl (hreflTick s) (Or.inl rfl)
          · split
            · exact forall₂_pointUpdate hids hmem0 rfl (hreflTick s) (Or.inl rfl)
            · split
              · exact forall₂_pointUpdate hids hmem0 rfl (hreflTick s) (Or.inl rfl)
              · split
                · split
                  · exact forall₂_pointUpdate hids hmem0 rfl (hreflTick s) (Or.inl rfl)
                  · exact forall₂_pointUpdate hids hmem0 rfl (hreflTick s) (Or.inl rfl)
                · exact forall₂_pointUpdate hids hmem0 rfl (hreflTick s) (Or.inl rfl)
  · unfold globalDroneStep
    cases hfd : findDrone gs did with
    | none => exact List.forall₂_same.mpr (hreflServ gs)
    | some drone =>
      have hmem0 : drone ∈ gs.drones := findDrone_mem hfd
      dsimp only
      split
      · split
        · split
          · split
            · split
              · exact forall₂_pointUpdate2 hgids hmem0 rfl rfl (hreflServ gs)
                  (Or.inr ⟨by assumption, by assumption,
                    ⟨_, by assumption, by assumption⟩, rfl⟩)
              · exact forall₂_pointUpdate hgids hmem0 rfl (hreflServ gs) (Or.inl rfl)
            · exact forall₂_pointUpdate hgids hmem0 rfl (hreflServ gs) (Or.inl rfl)
          · exact List.forall₂_same.mpr (hreflServ gs)
        · exact List.forall₂_same.mpr (hreflServ gs)
      · split
        · split
          · split
            · exact forall₂_pointUpdate hgids hmem0
                (moveDroneToDockIfAvailable_id gs { drone with status := DroneStatus.charging })
                (hreflServ gs)
                (Or.inl (moveDroneToDockIfAvailable_container gs
                  { drone with status := DroneStatus.charging }))
            · exact forall₂_pointUpdate hgids hmem0
                (moveDroneToDockIfAvailable_id gs { drone with status := DroneStatus.charging })
                (hreflServ gs)
                (Or.inl (moveDroneToDockIfAvailable_container gs
                  { drone with status := DroneStatus.charging }))
          · split
            · exact forall₂_pointUpdate hgids hmem0 rfl (hreflServ gs) (Or.inl rfl)
            · exact List.forall₂_same.mpr (hreflServ gs)
        · exact List.forall₂_same.mpr (hreflServ gs)
  · intro dr' hmem
    unfold replaceAllContainers at hmem
    rw [addLog_drones] at hmem
    dsimp only at hmem
    rw [List.mem_map] at hmem
    obtain ⟨dr0, _, hxeq⟩ := hmem
    rw [← hxeq]
    split
    · rfl
    · rfl

/-- Witness for C3 at the concrete double-pending-service state: position by
position, the only drone of the state relates to its serviced self, whose
container is `LAMPS_PER_CONTAINER * 2`. -/
theorem containerLampsRemaining_lifecycle_witness :
    ((c3State.drones.map Drone.id).Nodup) ∧
    List.Forall₂ (ContainerServiceRel 100) c3State.drones
      (globalDroneStep 100 c3State 1).drones :=
  ⟨by decide,
   (containerLampsRemaining_lifecycle (0 : ℤ) stayPut 0 0 0 c3State 0
      { droneId := 1, queue := [], targetLampId := none, replaceStartedAt := 0,
        replacedCount := 0, returning := false, completed := false }
      100 c3State 1 0 c3State (by decide) (by decide)).2.1⟩

end ClaimC3

section ClaimC8

/-- C8 counterexample: an auto-service dispatch whose mission fails to start
(its only plan lamp is occupied by another drone) leaves the scheduler state
— including `lastAutoDispatchAt` — untouched and logs the error; because the
timestamp is not refreshed, the very next scheduler tick, only 1000 ms after
the failed attempt (well under `AUTO_DISPATCH_COOLDOWN_MS`), runs a full new
dispatch attempt and creates a second mission. -/
theorem autoService_failure_retries_before_cooldown :
    ((tryAutoServiceDispatch zeroDist 10000 c8State c8Sched).2 = c8Sched) ∧
    ((tryAutoServiceDispatch zeroDist 10000 c8State c8Sched).1.missions.length = 1) ∧
    ((tryAutoServiceDispatch zeroDist 10000 c8State c8Sched).1.logs.getLast?
      = some LogKind.errorLog) ∧
    (11000 - 10000 < AUTO_DISPATCH_COOLDOWN_MS) ∧
    ((tryAutoServiceDispatch zeroDist 11000
        (tryAutoServiceDispatch zeroDist 10000 c8State c8Sched).1
        (tryAutoServiceDispatch zeroDist 10000 c8State c8Sched).2).1.missions.length = 2) := by
  refine ⟨by decide, by decide, by decide, by decide, by decide⟩

/-- C8 amended: when an auto-service dispatch passes every guard (feature
enabled, cooldown elapsed since the last committed dispatch, no manual
mission planned or running, ready drones available, non-empty proposal) but
the mission then fails to start, the whole scheduler state is returned
unchanged: the per-drone plan cursors keep their pre-dispatch values (so the
same plan position is retried) and the failure is logged to the error log.
However `lastAutoDispatchAt` is also left at its old value, so the cooldown
keeps counting from the last successful dispatch, not from the failed
attempt: the next tick may retry well before a full cooldown window has
elapsed since the failure (see the counterexample). -/
theorem tryAutoServiceDispatch_failure_commits_nothing {α : Type}
    [LinearOrderedCommRing α] (d : Dist α) (now : ℕ) (s : SysState α)
    (sched : SchedState)
    (hen : s.autoServiceEnabled = true)
    (hcool : AUTO_DISPATCH_COOLDOWN_MS ≤ now - sched.lastAutoDispatchAt)
    (hman : (s.missions.any (fun m =>
      decide (m.source = MissionSource.manual)
        && decide (m.status = MissionStatus.planned ∨ m.status = MissionStatus.running)))
      = false)
    (hready : ¬ (getReadyDronesForMission s).length = 0)
    (hdisp : (buildAutoServiceDispatch s sched
      (getReadyDronesForMission s)).routeLampIds.isEmpty = false)
    (hfail : ¬ (tryStartMission d now
        (createMission s now
          (buildAutoServiceDispatch s sched (getReadyDronesForMission s)).routeLampIds
          (buildAutoServiceDispatch s sched (getReadyDronesForMission s)).droneRoutes
          MissionSource.autoService) now).1 = StartResult.ok) :
    tryAutoServiceDispatch d now s sched =
      (addLog (tryStartMission d now
        (createMission s now
          (buildAutoServiceDispatch s sched (getReadyDronesForMission s)).routeLampIds
          (buildAutoServiceDispatch s sched (getReadyDronesForMission s)).droneRoutes
          MissionSource.autoService) now).2 LogKind.errorLog,
       sched) := by
  have h1 : (!s.autoServiceEnabled
      || decide (now - sched.lastAutoDispatchAt < AUTO_DISPATCH_COOLDOWN_MS)) = false := by
    rw [hen]
    simp only [Bool.not_true, Bool.false_or, decide_eq_false_iff_not, not_lt]
    exact hcool
  unfold tryAutoServiceDispatch
  rw [h1]
  simp only [Bool.false_eq_true, if_false]
  rw [hman]
  simp only [Bool.false_eq_true, if_false]
  rw [if_neg hready, hdisp]
  simp only [Bool.false_eq_true, if_false]
  rw [if_neg hfail]

/-- Witness for C8: the failing concrete dispatch satisfies every guard, and
its result is exactly the error-logged state with the scheduler unchanged. -/
theorem tryAutoServiceDispatch_failure_commits_nothing_witness :
    (AUTO_DISPATCH_COOLDOWN_MS ≤ 10000 - c8Sched.lastAutoDispatchAt) ∧
    tryAutoServiceDispatch zeroDist 10000 c8State c8Sched =
      (addLog (tryStartMission zeroDist 10000
        (createMission c8State 10000
          (buildAutoServiceDispatch c8State c8Sched
            (getReadyDronesForMission c8State)).routeLampIds
          (buildAutoServiceDispatch c8State c8Sched
            (getReadyDronesForMission c8State)).droneRoutes
          MissionSource.autoService) 10000).2 LogKind.errorLog,
       c8Sched) :=
  ⟨by decide,
   tryAutoServiceDispatch_failure_commits_nothing zeroDist 10000 c8State c8Sched
     (by decide) (by decide) (by decide) (by decide) (by decide) (by decide)⟩

end ClaimC8

end DroneSim
